import Mathlib

/-!
Shallow embedding of the booking status state machine and venue-availability
conflict check of the drdo-smart-dashboard repository.

The embedded code is the storage layer actually wired into the HTTP routes
(src/server/persistent-storage.ts, imported by src/server/routes.ts) together
with the route handlers of src/server/routes.ts that mutate bookings:
POST /api/bookings, PATCH /api/bookings/:id, PATCH /api/bookings/:id/cancel
and PATCH /api/bookings/:id/status.

Modelling conventions:
- Ids are natural numbers drawn from a monotone counter (the source draws
  random 9-character strings from Math.random and relies on their uniqueness).
- JavaScript Date values are epoch milliseconds as Nat; Date.toDateString
  comparison (calendar date only, time of day ignored) is modelled by the
  day index, i.e. division by 86400000.
- Times of day are the source's strings, compared with JavaScript string
  comparison (lexicographic), modelled by the lexicographic order on String.
- Each new Date() taken as a history timestamp is modelled by a clock counter
  that advances on every history append, so that appended entries carry
  strictly increasing creation times; JavaScript timestamps are non-decreasing
  and Array.prototype.sort is stable, so chronological order coincides with
  append order exactly as it does here.
- Thrown JavaScript errors are Except.error; the route-level try/catch
  blocks are the corresponding error branches of the route functions.
-/

namespace VenueBooking

/-- Booking status enum of shared/schema.ts (bookingStatusEnum, 8 values). -/
inductive BookingStatus where
  | submitted
  | gd_approved
  | gd_rejected
  | secretary_approved
  | secretary_rejected
  | it_setup_complete
  | completed
  | cancelled
deriving DecidableEq

/-- User role enum of shared/schema.ts (userRoleEnum, 4 values). -/
inductive UserRole where
  | user
  | group_director
  | secretary
  | it_team
deriving DecidableEq

/-- Meeting type enum of shared/schema.ts. -/
inductive MeetingType where
  | offline
  | online
  | miscellaneous
deriving DecidableEq

/-- Wire string of a booking status, used in the default history message
"Status updated to ..." of PersistentStorage.updateBookingStatus. -/
def statusToString : BookingStatus → String
  | .submitted => "submitted"
  | .gd_approved => "gd_approved"
  | .gd_rejected => "gd_rejected"
  | .secretary_approved => "secretary_approved"
  | .secretary_rejected => "secretary_rejected"
  | .it_setup_complete => "it_setup_complete"
  | .completed => "completed"
  | .cancelled => "cancelled"

/-- Lexicographic comparison of character lists, the order JavaScript uses on
strings (code-unit by code-unit, shorter prefix first). -/
def charsLt : List Char → List Char → Bool
  | [], [] => false
  | [], _ :: _ => true
  | _ :: _, [] => false
  | a :: as, b :: bs => if a < b then true else if b < a then false else charsLt as bs

/-- JavaScript string comparison a less-than b. -/
def jsLT (a b : String) : Bool := charsLt a.data b.data

/-- JavaScript string comparison a less-or-equal b, i.e. not (b less than a). -/
def jsLE (a b : String) : Bool := !(jsLT b a)

/-- JavaScript string comparison a greater-or-equal b, i.e. not (a less than b). -/
def jsGE (a b : String) : Bool := !(jsLT a b)

/-- Day index of an epoch-millisecond timestamp; models the calendar-date-only
comparison performed through Date.toDateString in checkVenueAvailability. -/
def toDateString (t : Nat) : Nat := t / 86400000

/-- User record (fields used by the embedded routes: id and role; the
authentication layer of the source supplies the rest). -/
structure UserRec where
  id : Nat
  role : UserRole
deriving DecidableEq

/-- Venue record (only the id is consulted by the embedded operations). -/
structure VenueRec where
  id : Nat
deriving DecidableEq

/-- Booking entity of shared/schema.ts (bookings table). -/
structure BookingRec where
  id : Nat
  userId : Nat
  venueId : Nat
  eventTitle : String
  eventDescription : Option String
  meetingType : MeetingType
  eventDate : Nat
  startTime : String
  endTime : String
  expectedAttendees : Nat
  department : String
  requestedResources : List String
  specialRequirements : Option String
  status : BookingStatus
  gdApprovalDate : Option Nat
  gdRemarks : Option String
  secretaryApprovalDate : Option Nat
  secretaryRemarks : Option String
  itSetupDate : Option Nat
  itRemarks : Option String
  createdAt : Nat
  updatedAt : Nat
deriving DecidableEq

/-- Booking history entry of shared/schema.ts (bookingHistory table). Every
writer in the embedded code passes a concrete remarks string. -/
structure HistoryRec where
  id : Nat
  bookingId : Nat
  status : BookingStatus
  remarks : String
  changedBy : Nat
  createdAt : Nat
deriving DecidableEq

/-- Payload accepted by insertBookingSchema of shared/schema.ts: all booking
columns except id, status, the six stage fields and the two timestamps. -/
structure InsertBooking where
  userId : Nat
  venueId : Nat
  eventTitle : String
  eventDescription : Option String
  meetingType : MeetingType
  eventDate : Nat
  startTime : String
  endTime : String
  expectedAttendees : Nat
  department : String
  requestedResources : List String
  specialRequirements : Option String
deriving DecidableEq

/-- In-memory store of PersistentStorage: the entity arrays plus the id
counter (generateId) and the clock (new Date()). -/
structure StorageState where
  users : List UserRec
  venues : List VenueRec
  bookings : List BookingRec
  history : List HistoryRec
  nextId : Nat
  clock : Nat
deriving DecidableEq

/-- PersistentStorage.generateId: fresh id plus advanced counter. -/
def generateId (s : StorageState) : Nat × StorageState :=
  (s.nextId, { s with nextId := s.nextId + 1 })

/-- PersistentStorage.addBookingHistory: creates the entry with a fresh id and
the current time and pushes it at the end of the history array. -/
def addBookingHistory (s : StorageState) (bookingId : Nat) (st : BookingStatus)
    (remarks : String) (changedBy : Nat) : HistoryRec × StorageState :=
  let p := generateId s
  let h : HistoryRec :=
    { id := p.1, bookingId := bookingId, status := st, remarks := remarks,
      changedBy := changedBy, createdAt := p.2.clock }
  (h, { p.2 with history := p.2.history ++ [h], clock := p.2.clock + 1 })

/-- PersistentStorage.checkVenueAvailability: filters the bookings array with
the source's early-return chain and reports availability as the filtered
array being empty. -/
def checkVenueAvailability (s : StorageState) (venueId : Nat) (date : Nat)
    (startTime endTime : String) (excludeBookingId : Option Nat) : Bool :=
  let conflicting := s.bookings.filter fun booking =>
    if (match excludeBookingId with | some e => booking.id == e | none => false) then false
    else if booking.venueId != venueId then false
    else if booking.status == .cancelled || booking.status == .gd_rejected
            || booking.status == .secretary_rejected then false
    else if toDateString booking.eventDate != toDateString date then false
    else !(jsLE endTime booking.startTime || jsGE startTime booking.endTime)
  conflicting.length == 0

/-- PersistentStorage.createBooking: pushes the new booking with status
submitted and appends the initial history entry. -/
def createBooking (s : StorageState) (d : InsertBooking) : BookingRec × StorageState :=
  let p := generateId s
  let b : BookingRec :=
    { id := p.1, userId := d.userId, venueId := d.venueId,
      eventTitle := d.eventTitle, eventDescription := d.eventDescription,
      meetingType := d.meetingType, eventDate := d.eventDate,
      startTime := d.startTime, endTime := d.endTime,
      expectedAttendees := d.expectedAttendees, department := d.department,
      requestedResources := d.requestedResources,
      specialRequirements := d.specialRequirements,
      status := .submitted,
      gdApprovalDate := none, gdRemarks := none,
      secretaryApprovalDate := none, secretaryRemarks := none,
      itSetupDate := none, itRemarks := none,
      createdAt := p.2.clock, updatedAt := p.2.clock }
  let s1 := { p.2 with bookings := p.2.bookings ++ [b] }
  let q := addBookingHistory s1 b.id .submitted "Booking request submitted" b.userId
  (b, q.2)

/-- Array.prototype.find by booking id, as used in PersistentStorage.getBooking. -/
def getBookingRaw (s : StorageState) (id : Nat) : Option BookingRec :=
  s.bookings.find? (fun b => b.id == id)

/-- PersistentStorage.getBooking: resolves the booking and then its user and
venue; any unresolved reference makes the whole lookup return undefined. -/
def getBooking (s : StorageState) (id : Nat) : Option BookingRec :=
  match getBookingRaw s id with
  | none => none
  | some b =>
    match s.users.find? (fun u => u.id == b.userId),
          s.venues.find? (fun v => v.id == b.venueId) with
    | some _, some _ => some b
    | _, _ => none

/-- Array.prototype.findIndex followed by in-place replacement of the first
element whose id matches, as done by updateBooking and updateBookingStatus.
Returns the replaced element together with the updated array, or none when
findIndex returns -1. -/
def updateFirst (l : List BookingRec) (id : Nat) (f : BookingRec → BookingRec) :
    Option (BookingRec × List BookingRec) :=
  match l with
  | [] => none
  | b :: rest =>
    if b.id == id then some (f b, f b :: rest)
    else
      match updateFirst rest id f with
      | none => none
      | some pr => some (pr.1, b :: pr.2)

/-- The object spread of PersistentStorage.updateBooking: the stored booking
overwritten with every insert-schema field of the payload plus a fresh
updatedAt (id, status, stage fields and createdAt are untouched). -/
def applyBookingUpdate (d : InsertBooking) (now : Nat) (b : BookingRec) : BookingRec :=
  { b with
    userId := d.userId
    venueId := d.venueId
    eventTitle := d.eventTitle
    eventDescription := d.eventDescription
    meetingType := d.meetingType
    eventDate := d.eventDate
    startTime := d.startTime
    endTime := d.endTime
    expectedAttendees := d.expectedAttendees
    department := d.department
    requestedResources := d.requestedResources
    specialRequirements := d.specialRequirements
    updatedAt := now }

/-- PersistentStorage.updateBooking: overwrites the insert-schema fields of the
matching booking and bumps updatedAt; throws when the id is unknown. -/
def updateBooking (s : StorageState) (id : Nat) (d : InsertBooking) :
    Except Unit (BookingRec × StorageState) :=
  match updateFirst s.bookings id (applyBookingUpdate d s.clock) with
  | none => .error ()
  | some pr => .ok (pr.1, { s with bookings := pr.2 })

/-- JavaScript truthy-or: the default is used when remarks are undefined or
the empty string (the empty string is falsy). -/
def jsOrDefault (remarks : Option String) (d : String) : String :=
  match remarks with
  | some r => if r == "" then d else r
  | none => d

/-- Status-specific field updates of PersistentStorage.updateBookingStatus:
the status and updatedAt always change, and the stage date and remarks of the
matching approval stage are stamped by the switch statement. -/
def applyStatusUpdate (st : BookingStatus) (remarks : Option String) (now : Nat)
    (b : BookingRec) : BookingRec :=
  let base := { b with status := st, updatedAt := now }
  match st with
  | .gd_approved | .gd_rejected =>
      { base with gdApprovalDate := some now, gdRemarks := remarks }
  | .secretary_approved | .secretary_rejected =>
      { base with secretaryApprovalDate := some now, secretaryRemarks := remarks }
  | .it_setup_complete =>
      { base with itSetupDate := some now, itRemarks := remarks }
  | _ => base

/-- PersistentStorage.updateBookingStatus: throws when the id is unknown,
otherwise applies the status update in place and appends one history entry
whose remarks default to a generated message when remarks are falsy. -/
def updateBookingStatus (s : StorageState) (id : Nat) (st : BookingStatus)
    (userId : Nat) (remarks : Option String) :
    Except Unit (BookingRec × StorageState) :=
  match updateFirst s.bookings id (applyStatusUpdate st remarks s.clock) with
  | none => .error ()
  | some pr =>
    let s1 := { s with bookings := pr.2 }
    let q := addBookingHistory s1 id st
      (jsOrDefault remarks ("Status updated to " ++ statusToString st)) userId
    .ok (pr.1, q.2)

/-- Chronological order on history entries (ascending creation time), the
comparator (a, b) => a.createdAt - b.createdAt of getBookingHistory. -/
def histLe (a b : HistoryRec) : Prop := a.createdAt ≤ b.createdAt

instance : DecidableRel histLe := fun a b =>
  inferInstanceAs (Decidable (a.createdAt ≤ b.createdAt))

instance : IsTotal HistoryRec histLe :=
  ⟨fun a b => Nat.le_total a.createdAt b.createdAt⟩

instance : IsTrans HistoryRec histLe :=
  ⟨fun _ _ _ h1 h2 => Nat.le_trans h1 h2⟩

/-- PersistentStorage.getBookingHistory: the entries of the given booking,
sorted ascending by creation time. -/
def getBookingHistory (s : StorageState) (bookingId : Nat) : List HistoryRec :=
  List.insertionSort histLe (s.history.filter (fun h => h.bookingId == bookingId))

/-- Response of a route handler: res.json of a booking entity, or
res.status(code).json of a message. A plain res.json carries code 200. -/
inductive RouteResponse where
  | booking (code : Nat) (b : BookingRec)
  | message (code : Nat) (msg : String)
deriving DecidableEq

/-- The allowedRoles record of PATCH /api/bookings/:id/status: only the five
stage statuses are mapped; every other status has no entry. -/
def statusGate (st : BookingStatus) : Option (List UserRole) :=
  match st with
  | .gd_approved => some [.group_director]
  | .gd_rejected => some [.group_director]
  | .secretary_approved => some [.secretary]
  | .secretary_rejected => some [.secretary]
  | .it_setup_complete => some [.it_team]
  | _ => none

/-- The authorization condition of PATCH /api/bookings/:id/status: a mapped
status requires the actor role to be listed; an unmapped status passes. -/
def statusGateAllows (st : BookingStatus) (r : UserRole) : Bool :=
  match statusGate st with
  | some roles => roles.contains r
  | none => true

/-- PATCH /api/bookings/:id/status of routes.ts: role gate, then
updateBookingStatus; a thrown storage error is caught and surfaced as 500. -/
def statusRoute (s : StorageState) (actor : UserRec) (bookingId : Nat)
    (st : BookingStatus) (remarks : Option String) : RouteResponse × StorageState :=
  if !(statusGateAllows st actor.role) then
    (.message 403 "Insufficient permissions", s)
  else
    match updateBookingStatus s bookingId st actor.id remarks with
    | .error _ => (.message 500 "Failed to update booking status", s)
    | .ok pr => (.booking 200 pr.1, pr.2)

/-- POST /api/bookings of routes.ts: availability check, createBooking, then
the route-level second history append commented "Add initial history entry". -/
def createRoute (s : StorageState) (actorId : Nat) (body : InsertBooking) :
    RouteResponse × StorageState :=
  let data := { body with userId := actorId }
  if !(checkVenueAvailability s data.venueId data.eventDate data.startTime
        data.endTime none) then
    (.message 400 "Venue not available for the selected time slot", s)
  else
    let p := createBooking s data
    let q := addBookingHistory p.2 p.1.id .submitted "Booking request submitted" actorId
    (.booking 200 p.1, q.2)

/-- Statuses in which PATCH /api/bookings/:id allows editing. -/
def editableStatuses : List BookingStatus := [.submitted, .gd_rejected, .secretary_rejected]

/-- Statuses in which PATCH /api/bookings/:id/cancel allows cancellation. -/
def cancellableStatuses : List BookingStatus :=
  [.submitted, .gd_approved, .secretary_approved, .gd_rejected, .secretary_rejected]

/-- PATCH /api/bookings/:id of routes.ts: 404 on unresolved booking, 403 for a
non-owner, 400 outside the editable statuses, 400 on a venue conflict
(excluding this booking), otherwise updateBooking, a resubmission history
append, and a status reset through updateBookingStatus. -/
def editRoute (s : StorageState) (actorId : Nat) (bookingId : Nat)
    (body : InsertBooking) : RouteResponse × StorageState :=
  match getBooking s bookingId with
  | none => (.message 404 "Booking not found", s)
  | some existing =>
    if existing.userId != actorId then
      (.message 403 "Not authorized to edit this booking", s)
    else if !(editableStatuses.contains existing.status) then
      (.message 400 "Booking cannot be edited at this stage", s)
    else
      let updateData := { body with userId := actorId }
      if !(checkVenueAvailability s updateData.venueId updateData.eventDate
            updateData.startTime updateData.endTime (some bookingId)) then
        (.message 400 "Venue not available for the selected time slot", s)
      else
        match updateBooking s bookingId updateData with
        | .error _ => (.message 400 "Failed to update booking", s)
        | .ok pr =>
          let q := addBookingHistory pr.2 bookingId .submitted
            "Booking updated and resubmitted for approval" actorId
          match updateBookingStatus q.2 bookingId .submitted actorId
              (some "Booking updated") with
          | .error _ => (.message 400 "Failed to update booking", q.2)
          | .ok pr2 => (.booking 200 pr.1, pr2.2)

/-- PATCH /api/bookings/:id/cancel of routes.ts: 404 on unresolved booking,
403 for a non-owner, 400 outside the cancellable statuses, otherwise
updateBookingStatus to cancelled followed by the route-level second history
append. -/
def cancelRoute (s : StorageState) (actorId : Nat) (bookingId : Nat) :
    RouteResponse × StorageState :=
  match getBooking s bookingId with
  | none => (.message 404 "Booking not found", s)
  | some existing =>
    if existing.userId != actorId then
      (.message 403 "Not authorized to cancel this booking", s)
    else if !(cancellableStatuses.contains existing.status) then
      (.message 400 "Booking cannot be cancelled at this stage", s)
    else
      match updateBookingStatus s bookingId .cancelled actorId
          (some "Booking cancelled by user") with
      | .error _ => (.message 500 "Failed to cancel booking", s)
      | .ok pr =>
        let q := addBookingHistory pr.2 bookingId .cancelled
          "Booking cancelled by user" actorId
        (.message 200 "Booking cancelled successfully", q.2)

/-! ### Spec-side predicates -/

/-- Conflict predicate in the words of the specification: a booking other than
the excluded one, on the same venue, in the active status set consisting of
submitted, gd_approved, secretary_approved, it_setup_complete and completed,
on the same calendar date, whose half-open time range overlaps the requested
one, i.e. not (requestedEnd at-or-before existingStart or requestedStart
at-or-after existingEnd). -/
def SpecConflict (venueId date : Nat) (startTime endTime : String)
    (excl : Option Nat) (b : BookingRec) : Prop :=
  (∀ e, excl = some e → b.id ≠ e) ∧
  b.venueId = venueId ∧
  (b.status = BookingStatus.submitted ∨ b.status = BookingStatus.gd_approved ∨
    b.status = BookingStatus.secretary_approved ∨
    b.status = BookingStatus.it_setup_complete ∨
    b.status = BookingStatus.completed) ∧
  toDateString b.eventDate = toDateString date ∧
  ¬(jsLE endTime b.startTime = true ∨ jsGE startTime b.endTime = true)

/-- Numeric code of a route response (the HTTP status it is sent with). -/
def respCode : RouteResponse → Nat
  | .booking c _ => c
  | .message c _ => c

/-! ### Example fixtures used by witnesses and counterexamples -/

/-- Example booking owner (role user, id 1). -/
def exOwner : UserRec := { id := 1, role := .user }

/-- Example secretary actor (id 2). -/
def exSecretary : UserRec := { id := 2, role := .secretary }

/-- Example group director actor (id 3). -/
def exDirector : UserRec := { id := 3, role := .group_director }

/-- Example IT team actor (id 4). -/
def exItTeam : UserRec := { id := 4, role := .it_team }

/-- Example venue (id 5). -/
def exVenue : VenueRec := { id := 5 }

/-- Example booking payload: venue 5, event day index 0, 10:00 to 12:00. -/
def exPayload : InsertBooking :=
  { userId := 1, venueId := 5, eventTitle := "Team meeting",
    eventDescription := none, meetingType := .offline, eventDate := 100,
    startTime := "10:00", endTime := "12:00", expectedAttendees := 5,
    department := "R&D", requestedResources := [], specialRequirements := none }

/-- Example initial store: four users, one venue, no bookings, no history. -/
def exState0 : StorageState :=
  { users := [exOwner, exSecretary, exDirector, exItTeam], venues := [exVenue],
    bookings := [], history := [], nextId := 10, clock := 0 }

/-- Store after user 1 successfully creates a booking through POST
/api/bookings: one booking with id 10 and status submitted. -/
def exState1 : StorageState := (createRoute exState0 1 exPayload).2

/-- The booking entity created inside exState1 (id 10, owner 1, submitted). -/
def exBooking1 : BookingRec := (createBooking exState0 { exPayload with userId := 1 }).1

/-- Booking 10 after a director approval with remarks ok. -/
def exApproved : BookingRec :=
  applyStatusUpdate BookingStatus.gd_approved (some "ok") exState1.clock exBooking1

/-- Store after approving booking 10 in exState1 with remarks ok. -/
def exState2 : StorageState :=
  (addBookingHistory { exState1 with bookings := [exApproved] } 10
    BookingStatus.gd_approved "ok" 3).2

/-- Payload overlapping the 10:00 to 12:00 slot of booking 10 (11:00-13:00). -/
def exConflictBody : InsertBooking :=
  { exPayload with startTime := "11:00", endTime := "13:00" }

/-- Payload for a second, non-conflicting booking (13:00-14:00, same venue and day). -/
def exPayloadB : InsertBooking :=
  { exPayload with startTime := "13:00", endTime := "14:00" }

/-- Store holding two bookings of user 1: id 10 (10:00-12:00) and id 13
(13:00-14:00), same venue and day. -/
def exState1b : StorageState := (createRoute exState1 1 exPayloadB).2

/-- Edit payload that would move booking 10 into the slot of booking 13. -/
def exEditConflict : InsertBooking :=
  { exPayload with startTime := "13:15", endTime := "13:45" }

/-- Edit payload moving booking 10 to a free 14:00-15:00 slot. -/
def exEditOk : InsertBooking :=
  { exPayload with startTime := "14:00", endTime := "15:00" }

/-! ### Reachability and the ledger invariant -/

/-- Store invariant: history timestamps strictly increase along the array and
stay below the clock, ids stay below the id counter, booking ids are unique,
and for every booking the history rows carrying its id (in array order, which
by sortedness is chronological order) start with a submitted row and end with
a row carrying the booking's current status. -/
structure Inv (s : StorageState) : Prop where
  histSorted : s.history.Pairwise (fun a b => a.createdAt < b.createdAt)
  histClock : ∀ h ∈ s.history, h.createdAt < s.clock
  bookIdBound : ∀ b ∈ s.bookings, b.id < s.nextId
  histIdBound : ∀ h ∈ s.history, h.bookingId < s.nextId
  bookNodup : s.bookings.Pairwise (fun a b => a.id ≠ b.id)
  ledgerHead : ∀ b ∈ s.bookings,
    (s.history.filter (fun h => h.bookingId == b.id)).head?.map (fun h => h.status) =
      some BookingStatus.submitted
  ledgerLast : ∀ b ∈ s.bookings,
    (s.history.filter (fun h => h.bookingId == b.id)).getLast?.map (fun h => h.status) =
      some b.status

/-- One mutating request handled by the server: booking creation, edit,
cancellation, or a status update, with arbitrary arguments. -/
inductive Step : StorageState → StorageState → Prop where
  | create (s : StorageState) (actorId : Nat) (body : InsertBooking) :
      Step s (createRoute s actorId body).2
  | edit (s : StorageState) (actorId bid : Nat) (body : InsertBooking) :
      Step s (editRoute s actorId bid body).2
  | cancel (s : StorageState) (actorId bid : Nat) :
      Step s (cancelRoute s actorId bid).2
  | status (s : StorageState) (actor : UserRec) (bid : Nat) (st : BookingStatus)
      (rem : Option String) : Step s (statusRoute s actor bid st rem).2

/-- A store is reachable when it arises from a store with no bookings and no
history (users and venues arbitrary) by any sequence of requests. -/
def Reachable (s : StorageState) : Prop :=
  ∃ s0 : StorageState, s0.bookings = [] ∧ s0.history = [] ∧
    Relation.ReflTransGen Step s0 s

/-! ### Helper lemmas -/

/-- An empty-filter count compared with zero, as the availability check does,
is false exactly when some list element satisfies the predicate. -/
theorem filter_length_beq_zero_eq_false_iff (l : List BookingRec)
    (p : BookingRec → Bool) :
    (((l.filter p).length == 0) = false) ↔ ∃ b ∈ l, p b = true := by
  simp [List.length_eq_zero, List.filter_eq_nil_iff]

/-- Pointwise reading of the filter predicate of checkVenueAvailability as
the conflict predicate written from the specification. -/
theorem conflictPred_iff (venueId date : Nat) (startTime endTime : String)
    (excl : Option Nat) (b : BookingRec) :
    ((if (match excl with | some e => b.id == e | none => false) then false
      else if b.venueId != venueId then false
      else if b.status == BookingStatus.cancelled || b.status == BookingStatus.gd_rejected
              || b.status == BookingStatus.secretary_rejected then false
      else if toDateString b.eventDate != toDateString date then false
      else !(jsLE endTime b.startTime || jsGE startTime b.endTime)) = true) ↔
      SpecConflict venueId date startTime endTime excl b := by
  unfold SpecConflict
  rcases excl with _ | e <;> cases hst : b.status <;>
    by_cases h1 : b.venueId = venueId <;>
    by_cases h2 : toDateString b.eventDate = toDateString date <;>
    by_cases h0 : (match (none : Option Nat) with | some e => b.id == e | none => false) = true <;>
      simp_all [hst, h1, h2]

/-- C1: checkVenueAvailability returns false exactly when some booking other
than the excluded one, on the same venue, with a status in the active set
consisting of submitted, gd_approved, secretary_approved, it_setup_complete
and completed, on the same calendar date, overlaps the requested half-open
time range; in particular it returns true when there is no such booking, and
touching boundaries are not conflicts. -/
theorem checkVenueAvailability_false_iff (s : StorageState) (venueId date : Nat)
    (startTime endTime : String) (excl : Option Nat) :
    checkVenueAvailability s venueId date startTime endTime excl = false ↔
      ∃ b ∈ s.bookings, SpecConflict venueId date startTime endTime excl b := by
  unfold checkVenueAvailability
  rw [filter_length_beq_zero_eq_false_iff]
  exact exists_congr fun b =>
    and_congr_right fun _ => conflictPred_iff venueId date startTime endTime excl b

/-- The findIndex-style update misses exactly when no element carries the id. -/
theorem updateFirst_eq_none_iff (l : List BookingRec) (id : Nat)
    (f : BookingRec → BookingRec) :
    updateFirst l id f = none ↔ ∀ b ∈ l, (b.id == id) = false := by
  induction l with
  | nil => simp [updateFirst]
  | cons b rest ih =>
    cases hb : (b.id == id) with
    | true =>
      constructor
      · intro h
        simp [updateFirst, hb] at h
      · intro h
        exact absurd (h b (List.mem_cons_self b rest)) (by simp [hb])
    | false =>
      have heq : updateFirst (b :: rest) id f =
          match updateFirst rest id f with
          | none => none
          | some pr => some (pr.1, b :: pr.2) := by
        simp [updateFirst, hb]
      cases hr : updateFirst rest id f with
      | none =>
        rw [heq, hr]
        constructor
        · intro _ x hx
          rcases List.mem_cons.mp hx with hx | hx
          · exact hx ▸ hb
          · exact ih.mp hr x hx
        · intro _
          rfl
      | some pr =>
        rw [heq, hr]
        constructor
        · intro h
          exact Option.noConfusion h
        · intro h
          exfalso
          have h0 : updateFirst rest id f = none :=
            ih.mpr (fun x hx => h x (List.mem_cons_of_mem b hx))
          rw [hr] at h0
          exact Option.noConfusion h0

/-- When some element carries the id, the findIndex-style update succeeds. -/
theorem updateFirst_isSome_of_mem (l : List BookingRec) (id : Nat)
    (f : BookingRec → BookingRec) (h : ∃ b ∈ l, b.id = id) :
    ∃ pr, updateFirst l id f = some pr := by
  cases hr : updateFirst l id f with
  | some pr => exact ⟨pr, rfl⟩
  | none =>
    obtain ⟨b, hb, hid⟩ := h
    have := (updateFirst_eq_none_iff l id f).mp hr b hb
    simp [hid] at this

/-- Successful findIndex-style update decomposed: the list splits around the
first element carrying the id, which is replaced in place. -/
theorem updateFirst_some_decomp (l : List BookingRec) (id : Nat)
    (f : BookingRec → BookingRec) (pr : BookingRec × List BookingRec)
    (h : updateFirst l id f = some pr) :
    ∃ pre b₀ post, l = pre ++ b₀ :: post ∧ (∀ x ∈ pre, (x.id == id) = false) ∧
      (b₀.id == id) = true ∧ pr = (f b₀, pre ++ f b₀ :: post) := by
  induction l generalizing pr with
  | nil => simp [updateFirst] at h
  | cons b rest ih =>
    cases hb : (b.id == id) with
    | true =>
      simp only [updateFirst, hb, if_true] at h
      refine ⟨[], b, rest, rfl, by simp, hb, ?_⟩
      simpa using h.symm
    | false =>
      simp only [updateFirst, hb, Bool.false_eq_true, if_false] at h
      cases hr : updateFirst rest id f with
      | none => rw [hr] at h; cases h
      | some pr2 =>
        rw [hr] at h
        simp only [Option.some.injEq] at h
        obtain ⟨pre, b₀, post, hl, hpre, hb₀, hpr2⟩ := ih pr2 hr
        refine ⟨b :: pre, b₀, post, by rw [hl]; rfl, ?_, hb₀, ?_⟩
        · intro x hx
          rcases List.mem_cons.mp hx with hx | hx
          · exact hx ▸ hb
          · exact hpre x hx
        · rw [← h, hpr2]
          simp

/-- C8: the history listing for a booking id is a permutation of exactly the
stored entries carrying that booking id, every listed entry carries that id,
and the listing is sorted ascending by creation time. -/
theorem getBookingHistory_chronological (s : StorageState) (bid : Nat) :
    List.Perm (getBookingHistory s bid)
      (s.history.filter (fun h => h.bookingId == bid)) ∧
    List.Sorted histLe (getBookingHistory s bid) ∧
    ∀ h ∈ getBookingHistory s bid, h.bookingId = bid := by
  refine ⟨List.perm_insertionSort _ _, List.sorted_insertionSort _ _, fun h hm => ?_⟩
  have hm2 := (List.mem_insertionSort _).mp hm
  exact beq_iff_eq.mp (List.mem_filter.mp hm2).2

/-- C2 counterexample: the secretary actor (id 2) does not own booking 10
(owned by user 1), yet sending target status cancelled through the generic
status-update route is not answered with Forbidden; it succeeds and the
booking ends up cancelled. -/
theorem statusRoute_cancel_ungated_cex :
    (getBookingRaw exState1 10).map (fun b => b.userId) = some 1 ∧
    (statusRoute exState1 exSecretary 10 BookingStatus.cancelled none).1 ≠
      RouteResponse.message 403 "Insufficient permissions" ∧
    (getBookingRaw (statusRoute exState1 exSecretary 10 BookingStatus.cancelled none).2 10).map
      (fun b => b.status) = some BookingStatus.cancelled := by
  refine ⟨rfl, ?_, rfl⟩
  decide

/-- C2 amended: on the status-update route the five stage statuses are gated
by role exactly as the fixed mapping states (director for gd decisions,
secretary for secretary decisions, IT team for setup completion; so a
secretary requesting gd_approved always receives Forbidden), and the
dedicated cancel route rejects any actor other than the booking owner with
Forbidden; a cancelled target sent through the generic status-update route,
however, is not ownership-gated. -/
theorem transition_authorization_mapping :
    (∀ (s : StorageState) (actor : UserRec) (bid : Nat) (rem : Option String),
      actor.role ≠ UserRole.group_director →
        (statusRoute s actor bid BookingStatus.gd_approved rem).1 =
          RouteResponse.message 403 "Insufficient permissions" ∧
        (statusRoute s actor bid BookingStatus.gd_rejected rem).1 =
          RouteResponse.message 403 "Insufficient permissions") ∧
    (∀ (s : StorageState) (actor : UserRec) (bid : Nat) (rem : Option String),
      actor.role ≠ UserRole.secretary →
        (statusRoute s actor bid BookingStatus.secretary_approved rem).1 =
          RouteResponse.message 403 "Insufficient permissions" ∧
        (statusRoute s actor bid BookingStatus.secretary_rejected rem).1 =
          RouteResponse.message 403 "Insufficient permissions") ∧
    (∀ (s : StorageState) (actor : UserRec) (bid : Nat) (rem : Option String),
      actor.role ≠ UserRole.it_team →
        (statusRoute s actor bid BookingStatus.it_setup_complete rem).1 =
          RouteResponse.message 403 "Insufficient permissions") ∧
    (∀ (s : StorageState) (actorId bid : Nat) (ex : BookingRec),
      getBooking s bid = some ex → ex.userId ≠ actorId →
        cancelRoute s actorId bid =
          (RouteResponse.message 403 "Not authorized to cancel this booking", s)) := by
  refine ⟨?_, ?_, ?_, ?_⟩
  · intro s actor bid rem h
    have hga : statusGateAllows BookingStatus.gd_approved actor.role = false := by
      cases hr : actor.role <;> first | rfl | exact absurd hr h
    have hgr : statusGateAllows BookingStatus.gd_rejected actor.role = false := by
      cases hr : actor.role <;> first | rfl | exact absurd hr h
    constructor <;> simp [statusRoute, hga, hgr]
  · intro s actor bid rem h
    have hga : statusGateAllows BookingStatus.secretary_approved actor.role = false := by
      cases hr : actor.role <;> first | rfl | exact absurd hr h
    have hgr : statusGateAllows BookingStatus.secretary_rejected actor.role = false := by
      cases hr : actor.role <;> first | rfl | exact absurd hr h
    constructor <;> simp [statusRoute, hga, hgr]
  · intro s actor bid rem h
    have hga : statusGateAllows BookingStatus.it_setup_complete actor.role = false := by
      cases hr : actor.role <;> first | rfl | exact absurd hr h
    simp [statusRoute, hga]
  · intro s actorId bid ex hget hne
    have hb : (ex.userId != actorId) = true := by
      simp [bne_iff_ne, hne]
    unfold cancelRoute
    rw [hget]
    simp [hb]

/-- C2 witness: a secretary requesting gd_approved receives Forbidden, and a
non-owner (the secretary, id 2) hitting the dedicated cancel route for
booking 10 owned by user 1 receives Forbidden with the store untouched. -/
theorem transition_authorization_mapping_witness :
    (statusRoute exState1 exSecretary 10 BookingStatus.gd_approved none).1 =
      RouteResponse.message 403 "Insufficient permissions" ∧
    cancelRoute exState1 2 10 =
      (RouteResponse.message 403 "Not authorized to cancel this booking", exState1) :=
  ⟨(transition_authorization_mapping.1 exState1 exSecretary 10 none (by decide)).1,
   transition_authorization_mapping.2.2.2 exState1 2 10 exBooking1 (by decide) (by decide)⟩

/-- C9 counterexample: a status transition on an unknown booking id is
surfaced by the status route as a generic 500 failure, not as a 404. -/
theorem statusRoute_unknown_booking_cex :
    statusRoute exState0 exDirector 99 BookingStatus.gd_approved none =
      (RouteResponse.message 500 "Failed to update booking status", exState0) ∧
    respCode (statusRoute exState0 exDirector 99 BookingStatus.gd_approved none).1 ≠ 404 := by
  decide

/-- C9 amended: a status transition whose booking id matches no stored booking
performs no mutation, and whenever the role gate passes it fails with the
storage-layer NotFound error, surfaced by the route as a generic 500 rather
than a 404. -/
theorem statusRoute_unknown_booking_fails (s : StorageState) (actor : UserRec)
    (bid : Nat) (st : BookingStatus) (rem : Option String)
    (hnone : ∀ b ∈ s.bookings, b.id ≠ bid) :
    (statusRoute s actor bid st rem).2 = s ∧
    (statusGateAllows st actor.role = true →
      (statusRoute s actor bid st rem).1 =
        RouteResponse.message 500 "Failed to update booking status") := by
  have h0 : updateFirst s.bookings bid (applyStatusUpdate st rem s.clock) = none :=
    (updateFirst_eq_none_iff _ _ _).mpr
      (fun b hb => beq_eq_false_iff_ne.mpr (hnone b hb))
  have hup : updateBookingStatus s bid st actor.id rem = Except.error () := by
    unfold updateBookingStatus
    rw [h0]
  cases hga : statusGateAllows st actor.role with
  | false => simp [statusRoute, hga]
  | true => simp [statusRoute, hga, hup]

/-- C9 witness: the director requesting gd_approved on the unknown booking id
99 in the initial store leaves the store unchanged and gets the 500 message. -/
theorem statusRoute_unknown_booking_fails_witness :
    (statusRoute exState0 exDirector 99 BookingStatus.gd_approved none).2 = exState0 ∧
    (statusGateAllows BookingStatus.gd_approved exDirector.role = true →
      (statusRoute exState0 exDirector 99 BookingStatus.gd_approved none).1 =
        RouteResponse.message 500 "Failed to update booking status") :=
  statusRoute_unknown_booking_fails exState0 exDirector 99 BookingStatus.gd_approved none
    (by decide)

/-- C10: the authorization map of the status route covers exactly the five
stage statuses; for submitted, completed and cancelled (the whole remainder
of the enum) no actor is ever rejected for authorization or for the current
booking state, and the update succeeds on any existing booking id. -/
theorem statusRoute_unmapped_statuses :
    (∀ st : BookingStatus, statusGate st = none ↔
      (st = BookingStatus.submitted ∨ st = BookingStatus.completed ∨
        st = BookingStatus.cancelled)) ∧
    (∀ (s : StorageState) (actor : UserRec) (bid : Nat) (st : BookingStatus)
        (rem : Option String), statusGate st = none →
      (∃ b ∈ s.bookings, b.id = bid) →
      ∃ pr, updateBookingStatus s bid st actor.id rem = Except.ok pr ∧
        statusRoute s actor bid st rem = (RouteResponse.booking 200 pr.1, pr.2)) := by
  constructor
  · intro st
    cases st <;> simp [statusGate]
  · intro s actor bid st rem hg hex
    obtain ⟨pr0, hpr0⟩ :=
      updateFirst_isSome_of_mem s.bookings bid (applyStatusUpdate st rem s.clock) hex
    have hallow : statusGateAllows st actor.role = true := by
      unfold statusGateAllows
      rw [hg]
    have hok : updateBookingStatus s bid st actor.id rem =
        Except.ok (pr0.1,
          (addBookingHistory { s with bookings := pr0.2 } bid st
            (jsOrDefault rem ("Status updated to " ++ statusToString st)) actor.id).2) := by
      unfold updateBookingStatus
      rw [hpr0]
    refine ⟨_, hok, ?_⟩
    unfold statusRoute
    rw [hallow, hok]
    simp

/-- C10 witness: the secretary, who neither owns booking 10 nor holds a role
mapped to the target, successfully forces status completed on it through the
status route. -/
theorem statusRoute_unmapped_statuses_witness :
    ∃ pr, updateBookingStatus exState1 10 BookingStatus.completed exSecretary.id none =
        Except.ok pr ∧
      statusRoute exState1 exSecretary 10 BookingStatus.completed none =
        (RouteResponse.booking 200 pr.1, pr.2) :=
  statusRoute_unmapped_statuses.2 exState1 exSecretary 10 BookingStatus.completed none
    rfl ⟨exBooking1, by decide, by decide⟩

/-- The status written by the switch of updateBookingStatus is the target. -/
theorem applyStatusUpdate_status (st : BookingStatus) (rem : Option String)
    (now : Nat) (b : BookingRec) : (applyStatusUpdate st rem now b).status = st := by
  cases st <;> rfl

/-- The switch of updateBookingStatus never touches the booking id. -/
theorem applyStatusUpdate_id (st : BookingStatus) (rem : Option String)
    (now : Nat) (b : BookingRec) : (applyStatusUpdate st rem now b).id = b.id := by
  cases st <;> rfl

/-- C4 counterexample: remarks given as the empty string are not stored in the
history entry; the JavaScript falsy-or replaces them with the default message
even though remarks were present. -/
theorem updateBookingStatus_empty_remarks_cex :
    (match updateBookingStatus exState1 10 BookingStatus.gd_approved 3 (some "") with
      | Except.ok pr => pr.2.history.getLast?.map (fun h => h.remarks)
      | Except.error _ => none) = some "Status updated to gd_approved" ∧
    some "Status updated to gd_approved" ≠ some "" := by
  refine ⟨rfl, ?_⟩
  decide

/-- C4 amended: every successful status update appends exactly one history
entry carrying the new status, the actor id, the current time, and the given
remarks or the default message when remarks are absent or empty; the switch
stamps gdApprovalDate and gdRemarks on gd decisions, secretaryApprovalDate
and secretaryRemarks on secretary decisions, itSetupDate and itRemarks on IT
setup completion, and stamps no stage field for submitted, cancelled or
completed. -/
theorem updateBookingStatus_stamps_and_history (s : StorageState) (bid : Nat)
    (st : BookingStatus) (uid : Nat) (rem : Option String)
    (b : BookingRec) (s' : StorageState)
    (h : updateBookingStatus s bid st uid rem = Except.ok (b, s')) :
    (s'.history = s.history ++
      [{ id := s.nextId, bookingId := bid, status := st,
         remarks := jsOrDefault rem ("Status updated to " ++ statusToString st),
         changedBy := uid, createdAt := s.clock }]) ∧
    ((rem = none ∨ rem = some "") →
      jsOrDefault rem ("Status updated to " ++ statusToString st) =
        "Status updated to " ++ statusToString st) ∧
    (∀ r, rem = some r → r ≠ "" →
      jsOrDefault rem ("Status updated to " ++ statusToString st) = r) ∧
    (∃ b₀ ∈ s.bookings, b₀.id = bid ∧ b = applyStatusUpdate st rem s.clock b₀ ∧
      b.status = st ∧
      ((st = BookingStatus.gd_approved ∨ st = BookingStatus.gd_rejected) →
        b.gdApprovalDate = some s.clock ∧ b.gdRemarks = rem ∧
        b.secretaryApprovalDate = b₀.secretaryApprovalDate ∧
        b.secretaryRemarks = b₀.secretaryRemarks ∧
        b.itSetupDate = b₀.itSetupDate ∧ b.itRemarks = b₀.itRemarks) ∧
      ((st = BookingStatus.secretary_approved ∨ st = BookingStatus.secretary_rejected) →
        b.secretaryApprovalDate = some s.clock ∧ b.secretaryRemarks = rem ∧
        b.gdApprovalDate = b₀.gdApprovalDate ∧ b.gdRemarks = b₀.gdRemarks ∧
        b.itSetupDate = b₀.itSetupDate ∧ b.itRemarks = b₀.itRemarks) ∧
      (st = BookingStatus.it_setup_complete →
        b.itSetupDate = some s.clock ∧ b.itRemarks = rem ∧
        b.gdApprovalDate = b₀.gdApprovalDate ∧ b.gdRemarks = b₀.gdRemarks ∧
        b.secretaryApprovalDate = b₀.secretaryApprovalDate ∧
        b.secretaryRemarks = b₀.secretaryRemarks) ∧
      ((st = BookingStatus.submitted ∨ st = BookingStatus.cancelled ∨
          st = BookingStatus.completed) →
        b.gdApprovalDate = b₀.gdApprovalDate ∧ b.gdRemarks = b₀.gdRemarks ∧
        b.secretaryApprovalDate = b₀.secretaryApprovalDate ∧
        b.secretaryRemarks = b₀.secretaryRemarks ∧
        b.itSetupDate = b₀.itSetupDate ∧ b.itRemarks = b₀.itRemarks)) := by
  unfold updateBookingStatus at h
  cases hup : updateFirst s.bookings bid (applyStatusUpdate st rem s.clock) with
  | none =>
    rw [hup] at h
    exact Except.noConfusion h
  | some pr =>
    rw [hup] at h
    simp only [Except.ok.injEq, Prod.mk.injEq] at h
    obtain ⟨hb, hs'⟩ := h
    obtain ⟨pre, b₀, post, hl, hpre, hb₀, hpr⟩ := updateFirst_some_decomp _ _ _ _ hup
    refine ⟨?_, ?_, ?_, b₀, ?_, beq_iff_eq.mp hb₀, ?_, ?_, ?_, ?_, ?_, ?_⟩
    · rw [← hs']
      simp [addBookingHistory, generateId]
    · rintro (hr | hr) <;> simp [jsOrDefault, hr]
    · intro r hr hne
      simp [jsOrDefault, hr, hne]
    · rw [hl]
      simp
    · rw [← hb, hpr]
    · rw [← hb, hpr]
      exact applyStatusUpdate_status st rem s.clock b₀
    · rintro (hst | hst) <;>
        (subst hst; rw [← hb, hpr]; simp [applyStatusUpdate])
    · rintro (hst | hst) <;>
        (subst hst; rw [← hb, hpr]; simp [applyStatusUpdate])
    · intro hst
      subst hst
      rw [← hb, hpr]
      simp [applyStatusUpdate]
    · rintro (hst | hst | hst) <;>
        (subst hst; rw [← hb, hpr]; simp [applyStatusUpdate])

/-- C4 witness: approving booking 10 with remarks ok appends the single
expected history entry. -/
theorem updateBookingStatus_stamps_and_history_witness :
    exState2.history = exState1.history ++
      [{ id := exState1.nextId, bookingId := 10, status := BookingStatus.gd_approved,
         remarks := jsOrDefault (some "ok")
           ("Status updated to " ++ statusToString BookingStatus.gd_approved),
         changedBy := 3, createdAt := exState1.clock }] :=
  (updateBookingStatus_stamps_and_history exState1 10 BookingStatus.gd_approved 3
    (some "ok") exApproved exState2 rfl).1

/-- C6: when the requested venue, date and time slot conflict with an existing
active booking, booking creation and booking editing answer 400 with the
conflict message and leave the store exactly as it was: no booking is created
or updated and no history row is appended. -/
theorem conflict_performs_no_mutation :
    (∀ (s : StorageState) (actorId : Nat) (body : InsertBooking),
      checkVenueAvailability s body.venueId body.eventDate body.startTime
        body.endTime none = false →
      createRoute s actorId body =
        (RouteResponse.message 400 "Venue not available for the selected time slot", s)) ∧
    (∀ (s : StorageState) (actorId bid : Nat) (body : InsertBooking) (ex : BookingRec),
      getBooking s bid = some ex → ex.userId = actorId →
      editableStatuses.contains ex.status = true →
      checkVenueAvailability s body.venueId body.eventDate body.startTime
        body.endTime (some bid) = false →
      editRoute s actorId bid body =
        (RouteResponse.message 400 "Venue not available for the selected time slot", s)) := by
  constructor
  · intro s actorId body hav
    unfold createRoute
    simp [hav]
  · intro s actorId bid body ex hget hown hedit hav
    unfold editRoute
    rw [hget]
    have h1 : (ex.userId != actorId) = false := by
      simp [bne, hown]
    have hmem : ex.status ∈ editableStatuses := by
      simpa using hedit
    simp [h1, hmem, hav]

/-- C6 witness: creating an overlapping 11:00-13:00 request on the busy venue
is refused without mutation, and editing booking 10 into the slot of booking
13 is refused without mutation. -/
theorem conflict_performs_no_mutation_witness :
    createRoute exState1 2 exConflictBody =
      (RouteResponse.message 400 "Venue not available for the selected time slot", exState1) ∧
    editRoute exState1b 1 10 exEditConflict =
      (RouteResponse.message 400 "Venue not available for the selected time slot", exState1b) :=
  ⟨conflict_performs_no_mutation.1 exState1 2 exConflictBody (by decide),
   conflict_performs_no_mutation.2 exState1b 1 10 exEditConflict exBooking1
     (by decide) (by decide) (by decide) (by decide)⟩

/-- A resolved getBooking lookup came from the raw array find. -/
theorem getBooking_raw (s : StorageState) (bid : Nat) (ex : BookingRec)
    (h : getBooking s bid = some ex) : getBookingRaw s bid = some ex := by
  unfold getBooking at h
  cases hr : getBookingRaw s bid with
  | none =>
    rw [hr] at h
    exact Option.noConfusion h
  | some b =>
    rw [hr] at h
    have h2 : (match s.users.find? (fun u => u.id == b.userId),
                s.venues.find? (fun v => v.id == b.venueId) with
               | some _, some _ => some b
               | _, _ => none) = some ex := h
    cases hu : s.users.find? (fun u => u.id == b.userId) with
    | none =>
      rw [hu] at h2
      cases hv : s.venues.find? (fun v => v.id == b.venueId) <;> rw [hv] at h2 <;>
        exact Option.noConfusion h2
    | some u =>
      rw [hu] at h2
      cases hv : s.venues.find? (fun v => v.id == b.venueId) with
      | none =>
        rw [hv] at h2
        exact Option.noConfusion h2
      | some v =>
        rw [hv] at h2
        exact h2

/-- Array.prototype.find decomposition: a found element splits the list with
all earlier elements failing the predicate. -/
theorem find?_decomp (l : List BookingRec) (p : BookingRec → Bool) (b : BookingRec)
    (h : l.find? p = some b) :
    ∃ pre post, l = pre ++ b :: post ∧ (∀ x ∈ pre, p x = false) ∧ p b = true := by
  induction l with
  | nil => simp at h
  | cons a rest ih =>
    cases hp : p a with
    | true =>
      rw [List.find?_cons_of_pos _ hp] at h
      obtain rfl : a = b := by simpa using h
      exact ⟨[], rest, rfl, by simp, hp⟩
    | false =>
      rw [List.find?_cons_of_neg _ (by simp [hp])] at h
      obtain ⟨pre, post, hl, hpre, hb⟩ := ih h
      refine ⟨a :: pre, post, by rw [hl]; rfl, ?_, hb⟩
      intro x hx
      rcases List.mem_cons.mp hx with hx | hx
      · exact hx ▸ hp
      · exact hpre x hx

/-- The findIndex-style update on a decomposed list replaces the first match. -/
theorem updateFirst_append_cons (pre : List BookingRec) (b : BookingRec)
    (post : List BookingRec) (id : Nat) (f : BookingRec → BookingRec)
    (hpre : ∀ x ∈ pre, (x.id == id) = false) (hb : (b.id == id) = true) :
    updateFirst (pre ++ b :: post) id f = some (f b, pre ++ f b :: post) := by
  induction pre with
  | nil => simp [updateFirst, hb]
  | cons a rest ih =>
    have ha : (a.id == id) = false := hpre a (List.mem_cons_self a rest)
    have ih2 := ih (fun x hx => hpre x (List.mem_cons_of_mem a hx))
    simp only [List.cons_append, updateFirst, ha, Bool.false_eq_true, if_false,
      List.append_eq, ih2]

/-- C7 demonstration: a successful creation from the empty store answers 200
with a submitted booking, but its history holds two submitted rows, not one:
createBooking appends the initial entry and the route appends it again. -/
theorem createRoute_duplicate_history :
    respCode (createRoute exState0 1 exPayload).1 = 200 ∧
    (getBookingRaw (createRoute exState0 1 exPayload).2 10).map (fun b => b.status) =
      some BookingStatus.submitted ∧
    ((createRoute exState0 1 exPayload).2.history.filter
        (fun h => h.bookingId == 10)).length = 2 :=
  ⟨rfl, rfl, rfl⟩

/-- C5 counterexample: the owner successfully edits their submitted booking to
a free slot, yet two new history rows are appended, not exactly one. -/
theorem editRoute_appends_two_rows_cex :
    respCode (editRoute exState1 1 10 exEditOk).1 = 200 ∧
    (editRoute exState1 1 10 exEditOk).2.history.length = exState1.history.length + 2 :=
  ⟨rfl, rfl⟩

/-- The update spread of updateBooking never touches the booking id. -/
theorem applyBookingUpdate_id (d : InsertBooking) (now : Nat) (b : BookingRec) :
    (applyBookingUpdate d now b).id = b.id := rfl

/-- The edit route answers Forbidden to a non-owner without mutating. -/
theorem editRoute_nonowner_eq (s : StorageState) (actorId bid : Nat)
    (body : InsertBooking) (ex : BookingRec) (hget : getBooking s bid = some ex)
    (h1 : (ex.userId != actorId) = true) :
    editRoute s actorId bid body =
      (RouteResponse.message 403 "Not authorized to edit this booking", s) := by
  unfold editRoute
  rw [hget]
  simp [h1]

/-- The edit route answers InvalidStage outside the editable statuses without
mutating. -/
theorem editRoute_badstage_eq (s : StorageState) (actorId bid : Nat)
    (body : InsertBooking) (ex : BookingRec) (hget : getBooking s bid = some ex)
    (h1 : (ex.userId != actorId) = false)
    (h2 : editableStatuses.contains ex.status = false) :
    editRoute s actorId bid body =
      (RouteResponse.message 400 "Booking cannot be edited at this stage", s) := by
  have hnotin : ex.status ∉ editableStatuses := by
    simpa using h2
  unfold editRoute
  rw [hget]
  simp [h1, hnotin]

/-- The edit route answers Conflict on an unavailable slot without mutating. -/
theorem editRoute_conflict_eq (s : StorageState) (actorId bid : Nat)
    (body : InsertBooking) (ex : BookingRec) (hget : getBooking s bid = some ex)
    (h1 : (ex.userId != actorId) = false)
    (h2 : editableStatuses.contains ex.status = true)
    (hav : checkVenueAvailability s body.venueId body.eventDate body.startTime
      body.endTime (some bid) = false) :
    editRoute s actorId bid body =
      (RouteResponse.message 400 "Venue not available for the selected time slot", s) := by
  have hin : ex.status ∈ editableStatuses := by
    simpa using h2
  unfold editRoute
  rw [hget]
  simp [h1, hin, hav]

/-- The full effect of a successful edit: field overwrite, resubmission
history row, status reset to submitted with its own history row. -/
theorem editRoute_success_eq (s : StorageState) (actorId bid : Nat)
    (body : InsertBooking) (ex : BookingRec) (pre post : List BookingRec)
    (hget : getBooking s bid = some ex)
    (hsplit : s.bookings = pre ++ ex :: post)
    (hpre : ∀ x ∈ pre, (x.id == bid) = false)
    (hp : (ex.id == bid) = true)
    (h1 : (ex.userId != actorId) = false)
    (hmem : editableStatuses.contains ex.status = true)
    (hav : checkVenueAvailability s body.venueId body.eventDate body.startTime
      body.endTime (some bid) = true) :
    editRoute s actorId bid body =
      (RouteResponse.booking 200
        (applyBookingUpdate { body with userId := actorId } s.clock ex),
       { s with
         bookings := pre ++ applyStatusUpdate BookingStatus.submitted
           (some "Booking updated") (s.clock + 1)
           (applyBookingUpdate { body with userId := actorId } s.clock ex) :: post,
         history := (s.history ++
           [{ id := s.nextId, bookingId := bid, status := BookingStatus.submitted,
              remarks := "Booking updated and resubmitted for approval",
              changedBy := actorId, createdAt := s.clock }]) ++
           [{ id := s.nextId + 1, bookingId := bid, status := BookingStatus.submitted,
              remarks := "Booking updated", changedBy := actorId,
              createdAt := s.clock + 1 }],
         nextId := s.nextId + 2, clock := s.clock + 2 }) := by
  have hp2 : ((applyBookingUpdate { body with userId := actorId } s.clock ex).id == bid) = true := by
    rw [applyBookingUpdate_id]
    exact hp
  have hub : updateBooking s bid { body with userId := actorId } =
      Except.ok (applyBookingUpdate { body with userId := actorId } s.clock ex,
        { s with bookings :=
          pre ++ applyBookingUpdate { body with userId := actorId } s.clock ex :: post }) := by
    unfold updateBooking
    rw [hsplit, updateFirst_append_cons pre ex post bid _ hpre hp]
  have hubs : updateBookingStatus
      { s with
        bookings := pre ++ applyBookingUpdate { body with userId := actorId } s.clock ex :: post,
        history := s.history ++
          [{ id := s.nextId, bookingId := bid, status := BookingStatus.submitted,
             remarks := "Booking updated and resubmitted for approval",
             changedBy := actorId, createdAt := s.clock }],
        nextId := s.nextId + 1, clock := s.clock + 1 }
      bid BookingStatus.submitted actorId (some "Booking updated") =
      Except.ok
        (applyStatusUpdate BookingStatus.submitted (some "Booking updated") (s.clock + 1)
          (applyBookingUpdate { body with userId := actorId } s.clock ex),
         { s with
           bookings := pre ++ applyStatusUpdate BookingStatus.submitted
             (some "Booking updated") (s.clock + 1)
             (applyBookingUpdate { body with userId := actorId } s.clock ex) :: post,
           history := (s.history ++
             [{ id := s.nextId, bookingId := bid, status := BookingStatus.submitted,
                remarks := "Booking updated and resubmitted for approval",
                changedBy := actorId, createdAt := s.clock }]) ++
             [{ id := s.nextId + 1, bookingId := bid, status := BookingStatus.submitted,
                remarks := "Booking updated", changedBy := actorId,
                createdAt := s.clock + 1 }],
           nextId := s.nextId + 2, clock := s.clock + 2 }) := by
    unfold updateBookingStatus
    rw [updateFirst_append_cons pre _ post bid _ hpre hp2]
    rfl
  unfold editRoute
  rw [hget]
  simp only [h1, Bool.false_eq_true, if_false]
  have hq : (addBookingHistory
      { s with bookings :=
        pre ++ applyBookingUpdate { body with userId := actorId } s.clock ex :: post }
      bid BookingStatus.submitted "Booking updated and resubmitted for approval" actorId).2 =
      { s with
        bookings := pre ++ applyBookingUpdate { body with userId := actorId } s.clock ex :: post,
        history := s.history ++
          [{ id := s.nextId, bookingId := bid, status := BookingStatus.submitted,
             remarks := "Booking updated and resubmitted for approval",
             changedBy := actorId, createdAt := s.clock }],
        nextId := s.nextId + 1, clock := s.clock + 1 } := rfl
  simp only [hmem, Bool.not_true, Bool.false_eq_true, if_false, hav, hub, hq, hubs]

/-- C5 amended: editing requires the actor to own the booking (Forbidden
otherwise) and the current status to be submitted, gd_rejected or
secretary_rejected (InvalidStage otherwise); a successful edit of a submitted
booking to a non-conflicting venue and slot overwrites the mutable
creation-time fields, resets the status to submitted, and appends exactly two
new history rows: the resubmission note and the row of the status reset. -/
theorem editRoute_permissions_and_effects :
    (∀ (s : StorageState) (actorId bid : Nat) (body : InsertBooking) (ex : BookingRec),
      getBooking s bid = some ex → ex.userId ≠ actorId →
      editRoute s actorId bid body =
        (RouteResponse.message 403 "Not authorized to edit this booking", s)) ∧
    (∀ (s : StorageState) (actorId bid : Nat) (body : InsertBooking) (ex : BookingRec),
      getBooking s bid = some ex → ex.userId = actorId →
      editableStatuses.contains ex.status = false →
      editRoute s actorId bid body =
        (RouteResponse.message 400 "Booking cannot be edited at this stage", s)) ∧
    (∀ (s : StorageState) (actorId bid : Nat) (body : InsertBooking) (ex : BookingRec),
      getBooking s bid = some ex → ex.userId = actorId →
      ex.status = BookingStatus.submitted →
      checkVenueAvailability s body.venueId body.eventDate body.startTime
        body.endTime (some bid) = true →
      ∃ ub s2, editRoute s actorId bid body = (RouteResponse.booking 200 ub, s2) ∧
        s2.history = s.history ++
          [{ id := s.nextId, bookingId := bid, status := BookingStatus.submitted,
             remarks := "Booking updated and resubmitted for approval",
             changedBy := actorId, createdAt := s.clock },
           { id := s.nextId + 1, bookingId := bid, status := BookingStatus.submitted,
             remarks := "Booking updated", changedBy := actorId,
             createdAt := s.clock + 1 }] ∧
        (∃ b2 ∈ s2.bookings, b2.id = bid ∧ b2.status = BookingStatus.submitted ∧
          b2.userId = actorId ∧ b2.venueId = body.venueId ∧
          b2.eventTitle = body.eventTitle ∧
          b2.eventDescription = body.eventDescription ∧
          b2.meetingType = body.meetingType ∧ b2.eventDate = body.eventDate ∧
          b2.startTime = body.startTime ∧ b2.endTime = body.endTime ∧
          b2.expectedAttendees = body.expectedAttendees ∧
          b2.department = body.department ∧
          b2.requestedResources = body.requestedResources ∧
          b2.specialRequirements = body.specialRequirements)) := by
  refine ⟨?_, ?_, ?_⟩
  · intro s actorId bid body ex hget hne
    have h1 : (ex.userId != actorId) = true := by
      simp [bne_iff_ne, hne]
    unfold editRoute
    rw [hget]
    simp [h1]
  · intro s actorId bid body ex hget hown hedit
    have h1 : (ex.userId != actorId) = false := by
      simp [bne, hown]
    have hmem : ex.status ∉ editableStatuses := by
      simpa using hedit
    unfold editRoute
    rw [hget]
    simp [h1, hmem]
  · intro s actorId bid body ex hget hown hst hav
    obtain ⟨pre, post, hsplit, hpre, hp⟩ :=
      find?_decomp _ _ _ (getBooking_raw s bid ex hget)
    have h1 : (ex.userId != actorId) = false := by
      simp [bne, hown]
    have hmem : editableStatuses.contains ex.status = true := by
      rw [hst]
      rfl
    rw [editRoute_success_eq s actorId bid body ex pre post hget hsplit hpre hp h1 hmem hav]
    refine ⟨_, _, rfl, ?_, ?_⟩
    · simp
    · refine ⟨applyStatusUpdate BookingStatus.submitted (some "Booking updated") (s.clock + 1)
          (applyBookingUpdate { body with userId := actorId } s.clock ex),
        List.mem_append_right _ (List.mem_cons_self _ _), ?_,
        rfl, rfl, rfl, rfl, rfl, rfl, rfl, rfl, rfl, rfl, rfl, rfl, rfl⟩
      exact beq_iff_eq.mp hp

/-- C5 witness: user 1 edits their submitted booking 10 to the free
14:00-15:00 slot; the edit succeeds, overwrites the slot fields, resets the
status to submitted and appends the two history rows. -/
theorem editRoute_permissions_and_effects_witness :
    ∃ ub s2, editRoute exState1 1 10 exEditOk = (RouteResponse.booking 200 ub, s2) ∧
      s2.history = exState1.history ++
        [{ id := exState1.nextId, bookingId := 10, status := BookingStatus.submitted,
           remarks := "Booking updated and resubmitted for approval",
           changedBy := 1, createdAt := exState1.clock },
         { id := exState1.nextId + 1, bookingId := 10, status := BookingStatus.submitted,
           remarks := "Booking updated", changedBy := 1,
           createdAt := exState1.clock + 1 }] ∧
      (∃ b2 ∈ s2.bookings, b2.id = 10 ∧ b2.status = BookingStatus.submitted ∧
        b2.userId = 1 ∧ b2.venueId = exEditOk.venueId ∧
        b2.eventTitle = exEditOk.eventTitle ∧
        b2.eventDescription = exEditOk.eventDescription ∧
        b2.meetingType = exEditOk.meetingType ∧ b2.eventDate = exEditOk.eventDate ∧
        b2.startTime = exEditOk.startTime ∧ b2.endTime = exEditOk.endTime ∧
        b2.expectedAttendees = exEditOk.expectedAttendees ∧
        b2.department = exEditOk.department ∧
        b2.requestedResources = exEditOk.requestedResources ∧
        b2.specialRequirements = exEditOk.specialRequirements) :=
  editRoute_permissions_and_effects.2.2 exState1 1 10 exEditOk exBooking1
    rfl rfl rfl (by decide)

/-! ### Invariant preservation -/

/-- Appending a matching element extends the filter on the right. -/
theorem filter_concat_true {α} (l : List α) (e : α) (p : α → Bool) (he : p e = true) :
    (l ++ [e]).filter p = l.filter p ++ [e] := by
  rw [List.filter_append]
  simp [he]

/-- Appending a non-matching element leaves the filter unchanged. -/
theorem filter_concat_false {α} (l : List α) (e : α) (p : α → Bool) (he : p e = false) :
    (l ++ [e]).filter p = l.filter p := by
  rw [List.filter_append]
  simp [he]

/-- The head survives appending on the right. -/
theorem head?_concat {α} (l : List α) (x : α) (e : α) (h : l.head? = some x) :
    (l ++ [e]).head? = some x := by
  have hne : l ≠ [] := by
    intro h0
    rw [h0] at h
    exact Option.noConfusion h
  rw [List.head?_append_of_ne_nil _ hne]
  exact h

/-- Replacing an element by one with the same id keeps booking ids unique. -/
theorem pairwise_id_replace (pre post : List BookingRec) (a a2 : BookingRec)
    (hid : a2.id = a.id)
    (hp : (pre ++ a :: post).Pairwise fun x y => x.id ≠ y.id) :
    (pre ++ a2 :: post).Pairwise fun x y => x.id ≠ y.id := by
  rw [List.pairwise_append] at hp ⊢
  obtain ⟨h1, h2, h3⟩ := hp
  rw [List.pairwise_cons] at h2 ⊢
  obtain ⟨h2a, h2b⟩ := h2
  refine ⟨h1, ⟨?_, h2b⟩, ?_⟩
  · intro y hy
    rw [hid]
    exact h2a y hy
  · intro x hx y hy
    rcases List.mem_cons.mp hy with hy | hy
    · subst hy
      rw [hid]
      exact h3 x hx a (List.mem_cons_self a post)
    · exact h3 x hx y (List.mem_cons_of_mem _ hy)

/-- In a list of bookings with pairwise distinct ids, membership with a given
id determines the element. -/
theorem nodup_id_unique (l : List BookingRec)
    (hnd : l.Pairwise fun x y => x.id ≠ y.id) (a b : BookingRec)
    (ha : a ∈ l) (hb : b ∈ l) (hid : a.id = b.id) : a = b := by
  induction l with
  | nil => cases ha
  | cons c rest ih =>
    rw [List.pairwise_cons] at hnd
    rcases List.mem_cons.mp ha with ha1 | ha1 <;> rcases List.mem_cons.mp hb with hb1 | hb1
    · rw [ha1, hb1]
    · subst ha1
      exact absurd hid (hnd.1 b hb1)
    · subst hb1
      exact absurd hid.symm (hnd.1 a ha1)
    · exact ih hnd.2 ha1 hb1

/-- Appending one history row whose status agrees with the current status of
every booking carrying its id preserves the store invariant. -/
theorem inv_addBookingHistory (s : StorageState) (bid : Nat) (st : BookingStatus)
    (rem : String) (uid : Nat) (hInv : Inv s) (hbid : bid < s.nextId)
    (hst : ∀ b ∈ s.bookings, b.id = bid → b.status = st) :
    Inv (addBookingHistory s bid st rem uid).2 := by
  refine ⟨?_, ?_, ?_, ?_, ?_, ?_, ?_⟩
  · show (s.history ++ [_]).Pairwise _
    rw [List.pairwise_append]
    refine ⟨hInv.histSorted, by simp, ?_⟩
    intro a ha b hb
    rcases List.mem_singleton.mp hb with rfl
    exact hInv.histClock a ha
  · show ∀ h ∈ s.history ++ [_], _ < s.clock + 1
    intro h hh
    rcases List.mem_append.mp hh with hh | hh
    · exact Nat.lt_trans (hInv.histClock h hh) (Nat.lt_succ_self _)
    · rcases List.mem_singleton.mp hh with rfl
      exact Nat.lt_succ_self _
  · show ∀ b ∈ s.bookings, b.id < s.nextId + 1
    intro b hb
    exact Nat.lt_trans (hInv.bookIdBound b hb) (Nat.lt_succ_self _)
  · show ∀ h ∈ s.history ++ [_], _ < s.nextId + 1
    intro h hh
    rcases List.mem_append.mp hh with hh | hh
    · exact Nat.lt_trans (hInv.histIdBound h hh) (Nat.lt_succ_self _)
    · rcases List.mem_singleton.mp hh with rfl
      exact Nat.lt_trans hbid (Nat.lt_succ_self _)
  · exact hInv.bookNodup
  · have hH : (addBookingHistory s bid st rem uid).2.history =
        s.history ++ [⟨s.nextId, bid, st, rem, uid, s.clock⟩] := rfl
    have hB : (addBookingHistory s bid st rem uid).2.bookings = s.bookings := rfl
    simp only [hH, hB]
    intro b hb
    cases hmatch : (bid == b.id) with
    | false =>
      rw [filter_concat_false s.history ⟨s.nextId, bid, st, rem, uid, s.clock⟩
        (fun h => h.bookingId == b.id) hmatch]
      exact hInv.ledgerHead b hb
    | true =>
      rw [filter_concat_true s.history ⟨s.nextId, bid, st, rem, uid, s.clock⟩
        (fun h => h.bookingId == b.id) hmatch]
      have hold := hInv.ledgerHead b hb
      cases hh : (s.history.filter (fun h => h.bookingId == b.id)).head? with
      | none =>
        rw [hh] at hold
        exact Option.noConfusion hold
      | some x =>
        rw [hh] at hold
        rw [head?_concat _ x _ hh]
        exact hold
  · have hH : (addBookingHistory s bid st rem uid).2.history =
        s.history ++ [⟨s.nextId, bid, st, rem, uid, s.clock⟩] := rfl
    have hB : (addBookingHistory s bid st rem uid).2.bookings = s.bookings := rfl
    simp only [hH, hB]
    intro b hb
    cases hmatch : (bid == b.id) with
    | false =>
      rw [filter_concat_false s.history ⟨s.nextId, bid, st, rem, uid, s.clock⟩
        (fun h => h.bookingId == b.id) hmatch]
      exact hInv.ledgerLast b hb
    | true =>
      rw [filter_concat_true s.history ⟨s.nextId, bid, st, rem, uid, s.clock⟩
        (fun h => h.bookingId == b.id) hmatch, List.getLast?_concat]
      have : b.status = st := hst b hb (beq_iff_eq.mp hmatch).symm
      rw [this]
      rfl

/-- Natural-number equality tests are symmetric in their falsehood. -/
theorem beq_flip_false (m n : Nat) (h : (m == n) = false) : (n == m) = false :=
  beq_eq_false_iff_ne.mpr fun hnm => absurd hnm.symm (beq_eq_false_iff_ne.mp h)

/-- A successful field-overwriting update preserves the store invariant: ids,
statuses and the history are untouched. -/
theorem inv_updateBooking (s : StorageState) (bid : Nat) (d : InsertBooking)
    (b : BookingRec) (s' : StorageState) (hInv : Inv s)
    (h : updateBooking s bid d = Except.ok (b, s')) : Inv s' := by
  unfold updateBooking at h
  cases hup : updateFirst s.bookings bid (applyBookingUpdate d s.clock) with
  | none =>
    rw [hup] at h
    exact Except.noConfusion h
  | some pr =>
    rw [hup] at h
    simp only [Except.ok.injEq, Prod.mk.injEq] at h
    obtain ⟨hb, hs'⟩ := h
    obtain ⟨pre, b₀, post, hl, hpre, hb₀, hpr⟩ := updateFirst_some_decomp _ _ _ _ hup
    subst hpr
    subst hs'
    have hmem₀ : b₀ ∈ s.bookings := by
      rw [hl]
      simp
    have hBk : ({ s with bookings := ((applyBookingUpdate d s.clock b₀,
        pre ++ applyBookingUpdate d s.clock b₀ :: post) : BookingRec × List BookingRec).2 } :
        StorageState).bookings = pre ++ applyBookingUpdate d s.clock b₀ :: post := rfl
    refine ⟨hInv.histSorted, hInv.histClock, ?_, hInv.histIdBound, ?_, ?_, ?_⟩
    · simp only [hBk]
      intro x hx
      rcases List.mem_append.mp hx with hx | hx
      · exact hInv.bookIdBound x (by rw [hl]; exact List.mem_append_left _ hx)
      · rcases List.mem_cons.mp hx with hx | hx
        · subst hx
          exact hInv.bookIdBound b₀ hmem₀
        · exact hInv.bookIdBound x
            (by rw [hl]; exact List.mem_append_right _ (List.mem_cons_of_mem _ hx))
    · simp only [hBk]
      refine pairwise_id_replace pre post b₀ _ rfl ?_
      have := hInv.bookNodup
      rwa [hl] at this
    · simp only [hBk]
      intro x hx
      rcases List.mem_append.mp hx with hx | hx
      · exact hInv.ledgerHead x (by rw [hl]; exact List.mem_append_left _ hx)
      · rcases List.mem_cons.mp hx with hx | hx
        · subst hx
          exact hInv.ledgerHead b₀ hmem₀
        · exact hInv.ledgerHead x
            (by rw [hl]; exact List.mem_append_right _ (List.mem_cons_of_mem _ hx))
    · simp only [hBk]
      intro x hx
      rcases List.mem_append.mp hx with hx | hx
      · exact hInv.ledgerLast x (by rw [hl]; exact List.mem_append_left _ hx)
      · rcases List.mem_cons.mp hx with hx | hx
        · subst hx
          exact hInv.ledgerLast b₀ hmem₀
        · exact hInv.ledgerLast x
            (by rw [hl]; exact List.mem_append_right _ (List.mem_cons_of_mem _ hx))

/-- A successful status update preserves the store invariant; moreover the
returned booking is the unique stored booking carrying the id, its status is
the target, and the id stays below the id counter. -/
theorem inv_updateBookingStatus (s : StorageState) (bid : Nat) (st : BookingStatus)
    (uid : Nat) (rem : Option String) (b : BookingRec) (s' : StorageState)
    (hInv : Inv s) (h : updateBookingStatus s bid st uid rem = Except.ok (b, s')) :
    Inv s' ∧ b ∈ s'.bookings ∧ b.id = bid ∧ b.status = st ∧
      (∀ x ∈ s'.bookings, x.id = bid → x = b) ∧ bid < s'.nextId := by
  unfold updateBookingStatus at h
  cases hup : updateFirst s.bookings bid (applyStatusUpdate st rem s.clock) with
  | none =>
    rw [hup] at h
    exact Except.noConfusion h
  | some pr =>
    rw [hup] at h
    simp only [Except.ok.injEq, Prod.mk.injEq] at h
    obtain ⟨hb, hs'⟩ := h
    obtain ⟨pre, b₀, post, hl, hpre, hb₀, hpr⟩ := updateFirst_some_decomp _ _ _ _ hup
    subst hpr
    have hb2 : applyStatusUpdate st rem s.clock b₀ = b := hb
    subst hs'
    have hbid0 : b₀.id = bid := beq_iff_eq.mp hb₀
    have hmem₀ : b₀ ∈ s.bookings := by
      rw [hl]
      simp
    have hbidlt : bid < s.nextId := hbid0 ▸ hInv.bookIdBound b₀ hmem₀
    have hpost : ∀ x ∈ post, x.id ≠ bid := by
      have hnd := hInv.bookNodup
      rw [hl, List.pairwise_append] at hnd
      have := (List.pairwise_cons.mp hnd.2.1).1
      intro x hx hc
      exact absurd (hc ▸ hbid0.symm ▸ rfl : b₀.id = x.id) (this x hx)
    have hkey : (applyStatusUpdate st rem s.clock b₀).id = b₀.id :=
      applyStatusUpdate_id st rem s.clock b₀
    have hH : (addBookingHistory
        { s with bookings := ((applyStatusUpdate st rem s.clock b₀,
            pre ++ applyStatusUpdate st rem s.clock b₀ :: post) :
              BookingRec × List BookingRec).2 }
        bid st (jsOrDefault rem ("Status updated to " ++ statusToString st)) uid).2.history =
        s.history ++ [⟨s.nextId, bid, st,
          jsOrDefault rem ("Status updated to " ++ statusToString st), uid, s.clock⟩] := rfl
    refine ⟨⟨?_, ?_, ?_, ?_, ?_, ?_, ?_⟩, ?_, ?_, ?_, ?_, ?_⟩
    · show (s.history ++ [_]).Pairwise _
      rw [List.pairwise_append]
      refine ⟨hInv.histSorted, by simp, ?_⟩
      intro a ha c hc
      rcases List.mem_singleton.mp hc with rfl
      exact hInv.histClock a ha
    · show ∀ x ∈ s.history ++ [_], _ < s.clock + 1
      intro x hx
      rcases List.mem_append.mp hx with hx | hx
      · exact Nat.lt_trans (hInv.histClock x hx) (Nat.lt_succ_self _)
      · rcases List.mem_singleton.mp hx with rfl
        exact Nat.lt_succ_self _
    · show ∀ x ∈ pre ++ applyStatusUpdate st rem s.clock b₀ :: post, _ < s.nextId + 1
      intro x hx
      rcases List.mem_append.mp hx with hx | hx
      · exact Nat.lt_trans
          (hInv.bookIdBound x (by rw [hl]; exact List.mem_append_left _ hx))
          (Nat.lt_succ_self _)
      · rcases List.mem_cons.mp hx with hx | hx
        · subst hx
          rw [hkey]
          exact Nat.lt_trans (hInv.bookIdBound b₀ hmem₀) (Nat.lt_succ_self _)
        · exact Nat.lt_trans
            (hInv.bookIdBound x
              (by rw [hl]; exact List.mem_append_right _ (List.mem_cons_of_mem _ hx)))
            (Nat.lt_succ_self _)
    · show ∀ x ∈ s.history ++ [_], _ < s.nextId + 1
      intro x hx
      rcases List.mem_append.mp hx with hx | hx
      · exact Nat.lt_trans (hInv.histIdBound x hx) (Nat.lt_succ_self _)
      · rcases List.mem_singleton.mp hx with rfl
        exact Nat.lt_trans hbidlt (Nat.lt_succ_self _)
    · show (pre ++ applyStatusUpdate st rem s.clock b₀ :: post).Pairwise _
      refine pairwise_id_replace pre post b₀ _ hkey ?_
      have := hInv.bookNodup
      rwa [hl] at this
    · show ∀ x ∈ pre ++ applyStatusUpdate st rem s.clock b₀ :: post, _
      simp only [hH]
      intro x hx
      rcases List.mem_append.mp hx with hx | hx
      · rw [filter_concat_false s.history _ (fun h => h.bookingId == x.id)
          (beq_flip_false _ _ (hpre x hx))]
        exact hInv.ledgerHead x (by rw [hl]; exact List.mem_append_left _ hx)
      · rcases List.mem_cons.mp hx with hx | hx
        · subst hx
          simp only [hkey]
          rw [filter_concat_true s.history _ (fun h => h.bookingId == b₀.id)
            (beq_iff_eq.mpr hbid0.symm)]
          have hold := hInv.ledgerHead b₀ hmem₀
          cases hh : (s.history.filter (fun h => h.bookingId == b₀.id)).head? with
          | none =>
            rw [hh] at hold
            exact Option.noConfusion hold
          | some y =>
            rw [hh] at hold
            rw [head?_concat _ y _ hh]
            exact hold
        · rw [filter_concat_false s.history _ (fun h => h.bookingId == x.id)
            (beq_eq_false_iff_ne.mpr fun hc => absurd hc.symm (hpost x hx))]
          exact hInv.ledgerHead x
            (by rw [hl]; exact List.mem_append_right _ (List.mem_cons_of_mem _ hx))
    · show ∀ x ∈ pre ++ applyStatusUpdate st rem s.clock b₀ :: post, _
      simp only [hH]
      intro x hx
      rcases List.mem_append.mp hx with hx | hx
      · rw [filter_concat_false s.history _ (fun h => h.bookingId == x.id)
          (beq_flip_false _ _ (hpre x hx))]
        exact hInv.ledgerLast x (by rw [hl]; exact List.mem_append_left _ hx)
      · rcases List.mem_cons.mp hx with hx | hx
        · subst hx
          simp only [hkey]
          rw [filter_concat_true s.history _ (fun h => h.bookingId == b₀.id)
            (beq_iff_eq.mpr hbid0.symm), List.getLast?_concat]
          simp [applyStatusUpdate_status]
        · rw [filter_concat_false s.history _ (fun h => h.bookingId == x.id)
            (beq_eq_false_iff_ne.mpr fun hc => absurd hc.symm (hpost x hx))]
          exact hInv.ledgerLast x
            (by rw [hl]; exact List.mem_append_right _ (List.mem_cons_of_mem _ hx))
    · show b ∈ pre ++ applyStatusUpdate st rem s.clock b₀ :: post
      rw [← hb2]
      exact List.mem_append_right _ (List.mem_cons_self _ _)
    · rw [← hb2, hkey]
      exact hbid0
    · rw [← hb2]
      exact applyStatusUpdate_status st rem s.clock b₀
    · show ∀ x ∈ pre ++ applyStatusUpdate st rem s.clock b₀ :: post, x.id = bid → x = b
      intro x hx hxid
      rcases List.mem_append.mp hx with hx | hx
      · exact absurd hxid (beq_eq_false_iff_ne.mp (hpre x hx))
      · rcases List.mem_cons.mp hx with hx | hx
        · rw [hx, hb2]
        · exact absurd hxid (hpost x hx)
    · show bid < s.nextId + 1
      exact Nat.lt_trans hbidlt (Nat.lt_succ_self _)

/-- Creating a booking preserves the store invariant; the new booking is
stored, submitted, its fresh id bounded by the counter and unique. -/
theorem inv_createBooking (s : StorageState) (d : InsertBooking) (hInv : Inv s) :
    Inv (createBooking s d).2 ∧
      (createBooking s d).1 ∈ (createBooking s d).2.bookings ∧
      (createBooking s d).1.status = BookingStatus.submitted ∧
      (createBooking s d).1.id < (createBooking s d).2.nextId ∧
      (∀ x ∈ (createBooking s d).2.bookings, x.id = (createBooking s d).1.id →
        x = (createBooking s d).1) := by
  have hB : (createBooking s d).2.bookings = s.bookings ++ [(createBooking s d).1] := rfl
  have hH : (createBooking s d).2.history = s.history ++
      [⟨s.nextId + 1, s.nextId, BookingStatus.submitted, "Booking request submitted",
        d.userId, s.clock⟩] := rfl
  have hN : (createBooking s d).2.nextId = s.nextId + 2 := rfl
  have hC : (createBooking s d).2.clock = s.clock + 1 := rfl
  have hid : (createBooking s d).1.id = s.nextId := rfl
  have hoodf : ∀ x ∈ s.bookings, (s.nextId == x.id) = false := fun x hx =>
    beq_eq_false_iff_ne.mpr fun hc =>
      absurd hc.symm (Nat.ne_of_lt (hInv.bookIdBound x hx))
  have hnilf : s.history.filter (fun h => h.bookingId == s.nextId) = [] := by
    rw [List.filter_eq_nil_iff]
    intro h hh
    simp only [beq_iff_eq]
    exact Nat.ne_of_lt (hInv.histIdBound h hh)
  refine ⟨⟨?_, ?_, ?_, ?_, ?_, ?_, ?_⟩, ?_, rfl, ?_, ?_⟩
  · rw [hH, List.pairwise_append]
    refine ⟨hInv.histSorted, by simp, ?_⟩
    intro a ha c hc
    rcases List.mem_singleton.mp hc with rfl
    exact hInv.histClock a ha
  · rw [hH, hC]
    intro x hx
    rcases List.mem_append.mp hx with hx | hx
    · exact Nat.lt_trans (hInv.histClock x hx) (Nat.lt_succ_self _)
    · rcases List.mem_singleton.mp hx with rfl
      exact Nat.lt_succ_self _
  · rw [hB, hN]
    intro x hx
    rcases List.mem_append.mp hx with hx | hx
    · have := hInv.bookIdBound x hx
      omega
    · rcases List.mem_singleton.mp hx with rfl
      rw [hid]
      omega
  · rw [hH, hN]
    intro x hx
    rcases List.mem_append.mp hx with hx | hx
    · have := hInv.histIdBound x hx
      omega
    · rcases List.mem_singleton.mp hx with rfl
      show s.nextId < s.nextId + 2
      omega
  · rw [hB, List.pairwise_append]
    refine ⟨hInv.bookNodup, by simp, ?_⟩
    intro a ha c hc
    rcases List.mem_singleton.mp hc with rfl
    rw [hid]
    exact Nat.ne_of_lt (hInv.bookIdBound a ha)
  · rw [hB, hH]
    intro x hx
    rcases List.mem_append.mp hx with hx | hx
    · rw [filter_concat_false s.history _ (fun h => h.bookingId == x.id) (hoodf x hx)]
      exact hInv.ledgerHead x hx
    · rcases List.mem_singleton.mp hx with rfl
      simp only [hid]
      rw [filter_concat_true s.history _ (fun h => h.bookingId == s.nextId)
        (beq_iff_eq.mpr rfl), hnilf]
      rfl
  · rw [hB, hH]
    intro x hx
    rcases List.mem_append.mp hx with hx | hx
    · rw [filter_concat_false s.history _ (fun h => h.bookingId == x.id) (hoodf x hx)]
      exact hInv.ledgerLast x hx
    · rcases List.mem_singleton.mp hx with rfl
      simp only [hid]
      rw [filter_concat_true s.history _ (fun h => h.bookingId == s.nextId)
        (beq_iff_eq.mpr rfl), hnilf]
      rfl
  · rw [hB]
    exact List.mem_append_right _ (List.mem_cons_self _ _)
  · rw [hN, hid]
    omega
  · rw [hB]
    intro x hx hxid
    rcases List.mem_append.mp hx with hx | hx
    · rw [hid] at hxid
      exact absurd hxid.symm (beq_eq_false_iff_ne.mp (hoodf x hx))
    · rcases List.mem_singleton.mp hx with rfl
      rfl

/-- The status route preserves the store invariant. -/
theorem inv_statusRoute (s : StorageState) (actor : UserRec) (bid : Nat)
    (st : BookingStatus) (rem : Option String) (hInv : Inv s) :
    Inv (statusRoute s actor bid st rem).2 := by
  cases hga : statusGateAllows st actor.role with
  | false =>
    have h2 : (statusRoute s actor bid st rem).2 = s := by
      unfold statusRoute
      simp [hga]
    rw [h2]
    exact hInv
  | true =>
    cases hup : updateBookingStatus s bid st actor.id rem with
    | error e =>
      have h2 : (statusRoute s actor bid st rem).2 = s := by
        unfold statusRoute
        simp [hga, hup]
      rw [h2]
      exact hInv
    | ok pr =>
      have h2 : (statusRoute s actor bid st rem).2 = pr.2 := by
        unfold statusRoute
        simp [hga, hup]
      rw [h2]
      exact (inv_updateBookingStatus s bid st actor.id rem pr.1 pr.2 hInv
        (by rw [hup])).1

/-- The cancel route preserves the store invariant. -/
theorem inv_cancelRoute (s : StorageState) (actorId bid : Nat) (hInv : Inv s) :
    Inv (cancelRoute s actorId bid).2 := by
  cases hget : getBooking s bid with
  | none =>
    have h2 : (cancelRoute s actorId bid).2 = s := by
      unfold cancelRoute
      rw [hget]
    rw [h2]
    exact hInv
  | some ex =>
    cases h1 : (ex.userId != actorId) with
    | true =>
      have h2 : (cancelRoute s actorId bid).2 = s := by
        unfold cancelRoute
        rw [hget]
        simp [h1]
      rw [h2]
      exact hInv
    | false =>
      cases h2c : cancellableStatuses.contains ex.status with
      | false =>
        have hnotin : ex.status ∉ cancellableStatuses := by
          simpa using h2c
        have h2 : (cancelRoute s actorId bid).2 = s := by
          unfold cancelRoute
          rw [hget]
          simp [h1, hnotin]
        rw [h2]
        exact hInv
      | true =>
        have hin : ex.status ∈ cancellableStatuses := by
          simpa using h2c
        cases hup : updateBookingStatus s bid BookingStatus.cancelled actorId
            (some "Booking cancelled by user") with
        | error e =>
          have h2 : (cancelRoute s actorId bid).2 = s := by
            unfold cancelRoute
            rw [hget]
            simp [h1, hin, hup]
          rw [h2]
          exact hInv
        | ok pr =>
          have h2 : (cancelRoute s actorId bid).2 =
              (addBookingHistory pr.2 bid BookingStatus.cancelled
                "Booking cancelled by user" actorId).2 := by
            unfold cancelRoute
            rw [hget]
            simp [h1, hin, hup]
          rw [h2]
          obtain ⟨hInv2, hmem, hid, hstt, huni, hbound⟩ :=
            inv_updateBookingStatus s bid BookingStatus.cancelled actorId _ pr.1 pr.2
              hInv (by rw [hup])
          exact inv_addBookingHistory pr.2 bid BookingStatus.cancelled _ actorId hInv2
            hbound (fun x hx hxid => by rw [huni x hx hxid]; exact hstt)

/-- The creation route preserves the store invariant. -/
theorem inv_createRoute (s : StorageState) (actorId : Nat) (body : InsertBooking)
    (hInv : Inv s) : Inv (createRoute s actorId body).2 := by
  cases hav : checkVenueAvailability s body.venueId body.eventDate body.startTime
      body.endTime none with
  | false =>
    have h2 : (createRoute s actorId body).2 = s := by
      unfold createRoute
      simp [hav]
    rw [h2]
    exact hInv
  | true =>
    have h2 : (createRoute s actorId body).2 =
        (addBookingHistory (createBooking s { body with userId := actorId }).2
          (createBooking s { body with userId := actorId }).1.id
          BookingStatus.submitted "Booking request submitted" actorId).2 := by
      unfold createRoute
      simp [hav]
    rw [h2]
    obtain ⟨hInv2, hmem, hstt, hbound, huni⟩ :=
      inv_createBooking s { body with userId := actorId } hInv
    exact inv_addBookingHistory _ _ _ _ _ hInv2 hbound
      (fun x hx hxid => by rw [huni x hx hxid]; exact hstt)

/-- The edit route preserves the store invariant. -/
theorem inv_editRoute (s : StorageState) (actorId bid : Nat)
    (body : InsertBooking) (hInv : Inv s) :
    Inv (editRoute s actorId bid body).2 := by
  cases hget : getBooking s bid with
  | none =>
    have h2 : (editRoute s actorId bid body).2 = s := by
      unfold editRoute
      rw [hget]
    rw [h2]
    exact hInv
  | some ex =>
    cases h1 : (ex.userId != actorId) with
    | true =>
      rw [editRoute_nonowner_eq s actorId bid body ex hget h1]
      exact hInv
    | false =>
      cases h2 : editableStatuses.contains ex.status with
      | false =>
        rw [editRoute_badstage_eq s actorId bid body ex hget h1 h2]
        exact hInv
      | true =>
        cases hav : checkVenueAvailability s body.venueId body.eventDate
            body.startTime body.endTime (some bid) with
        | false =>
          rw [editRoute_conflict_eq s actorId bid body ex hget h1 h2 hav]
          exact hInv
        | true =>
          obtain ⟨pre, post, hsplit, hpre, hp⟩ :=
            find?_decomp _ _ _ (getBooking_raw s bid ex hget)
          rw [editRoute_success_eq s actorId bid body ex pre post hget hsplit hpre hp h1 h2 hav]
          have hbid0 : ex.id = bid := beq_iff_eq.mp hp
          have hmem₀ : ex ∈ s.bookings := by
            rw [hsplit]
            simp
          have hbidlt : bid < s.nextId := hbid0 ▸ hInv.bookIdBound ex hmem₀
          have hpost : ∀ x ∈ post, x.id ≠ bid := by
            have hnd := hInv.bookNodup
            rw [hsplit, List.pairwise_append] at hnd
            have hh := (List.pairwise_cons.mp hnd.2.1).1
            intro x hx hc
            exact absurd (hc ▸ hbid0.symm ▸ rfl : ex.id = x.id) (hh x hx)
          have hkey : (applyStatusUpdate BookingStatus.submitted (some "Booking updated")
              (s.clock + 1)
              (applyBookingUpdate { body with userId := actorId } s.clock ex)).id = ex.id := rfl
          have hs1 : (s.history ++
              [(⟨s.nextId, bid, BookingStatus.submitted,
                "Booking updated and resubmitted for approval", actorId, s.clock⟩ :
                HistoryRec)]).Pairwise (fun a b => a.createdAt < b.createdAt) := by
            rw [List.pairwise_append]
            refine ⟨hInv.histSorted, by simp, ?_⟩
            intro a ha c hc
            rcases List.mem_singleton.mp hc with rfl
            exact hInv.histClock a ha
          refine ⟨?_, ?_, ?_, ?_, ?_, ?_, ?_⟩
          · show ((s.history ++ [_]) ++ [_]).Pairwise _
            rw [List.pairwise_append]
            refine ⟨hs1, by simp, ?_⟩
            intro a ha c hc
            rcases List.mem_singleton.mp hc with rfl
            rcases List.mem_append.mp ha with ha | ha
            · exact Nat.lt_trans (hInv.histClock a ha) (Nat.lt_succ_self _)
            · rcases List.mem_singleton.mp ha with rfl
              exact Nat.lt_succ_self _
          · show ∀ x ∈ (s.history ++ [_]) ++ [_], _ < s.clock + 2
            intro x hx
            rcases List.mem_append.mp hx with hx | hx
            · rcases List.mem_append.mp hx with hx | hx
              · have := hInv.histClock x hx
                omega
              · rcases List.mem_singleton.mp hx with rfl
                show s.clock < s.clock + 2
                omega
            · rcases List.mem_singleton.mp hx with rfl
              show s.clock + 1 < s.clock + 2
              omega
          · show ∀ x ∈ pre ++ _ :: post, _ < s.nextId + 2
            intro x hx
            rcases List.mem_append.mp hx with hx | hx
            · have := hInv.bookIdBound x (by rw [hsplit]; exact List.mem_append_left _ hx)
              omega
            · rcases List.mem_cons.mp hx with hx | hx
              · subst hx
                rw [hkey]
                have := hInv.bookIdBound ex hmem₀
                omega
              · have := hInv.bookIdBound x
                  (by rw [hsplit]; exact List.mem_append_right _ (List.mem_cons_of_mem _ hx))
                omega
          · show ∀ x ∈ (s.history ++ [_]) ++ [_], _ < s.nextId + 2
            intro x hx
            rcases List.mem_append.mp hx with hx | hx
            · rcases List.mem_append.mp hx with hx | hx
              · have := hInv.histIdBound x hx
                omega
              · rcases List.mem_singleton.mp hx with rfl
                show bid < s.nextId + 2
                omega
            · rcases List.mem_singleton.mp hx with rfl
              show bid < s.nextId + 2
              omega
          · show (pre ++ _ :: post).Pairwise _
            refine pairwise_id_replace pre post ex _ hkey ?_
            have := hInv.bookNodup
            rwa [hsplit] at this
          · show ∀ x ∈ pre ++ (applyStatusUpdate BookingStatus.submitted (some "Booking updated") (s.clock + 1)
                (applyBookingUpdate { body with userId := actorId } s.clock ex)) :: post,
              (((s.history ++ [(⟨s.nextId, bid, BookingStatus.submitted,
                "Booking updated and resubmitted for approval", actorId, s.clock⟩ : HistoryRec)]) ++
                [(⟨s.nextId + 1, bid, BookingStatus.submitted, "Booking updated",
                  actorId, s.clock + 1⟩ : HistoryRec)]).filter
                (fun h : HistoryRec => h.bookingId == x.id)).head?.map
                  (fun h : HistoryRec => h.status) =
                some BookingStatus.submitted
            intro x hx
            rcases List.mem_append.mp hx with hx | hx
            · rw [filter_concat_false (s.history ++ [(⟨s.nextId, bid, BookingStatus.submitted,
                  "Booking updated and resubmitted for approval", actorId, s.clock⟩ : HistoryRec)]) (⟨s.nextId + 1, bid, BookingStatus.submitted, "Booking updated",
                  actorId, s.clock + 1⟩ : HistoryRec)
                (fun h => h.bookingId == x.id) (beq_flip_false _ _ (hpre x hx)),
                filter_concat_false s.history (⟨s.nextId, bid, BookingStatus.submitted,
                  "Booking updated and resubmitted for approval", actorId, s.clock⟩ : HistoryRec) (fun h => h.bookingId == x.id)
                (beq_flip_false _ _ (hpre x hx))]
              exact hInv.ledgerHead x (by rw [hsplit]; exact List.mem_append_left _ hx)
            · rcases List.mem_cons.mp hx with hx | hx
              · subst hx
                simp only [hkey]
                rw [filter_concat_true (s.history ++ [(⟨s.nextId, bid, BookingStatus.submitted,
                  "Booking updated and resubmitted for approval", actorId, s.clock⟩ : HistoryRec)]) (⟨s.nextId + 1, bid, BookingStatus.submitted, "Booking updated",
                  actorId, s.clock + 1⟩ : HistoryRec)
                    (fun h => h.bookingId == ex.id) (beq_iff_eq.mpr hbid0.symm),
                  filter_concat_true s.history (⟨s.nextId, bid, BookingStatus.submitted,
                  "Booking updated and resubmitted for approval", actorId, s.clock⟩ : HistoryRec) (fun h => h.bookingId == ex.id)
                    (beq_iff_eq.mpr hbid0.symm)]
                have hold := hInv.ledgerHead ex hmem₀
                cases hh : (s.history.filter (fun h => h.bookingId == ex.id)).head? with
                | none =>
                  rw [hh] at hold
                  exact Option.noConfusion hold
                | some y =>
                  rw [hh] at hold
                  rw [head?_concat _ y _ (head?_concat _ y _ hh)]
                  exact hold
              · have hxf : (bid == x.id) = false :=
                  beq_eq_false_iff_ne.mpr fun hc => absurd hc.symm (hpost x hx)
                rw [filter_concat_false (s.history ++ [(⟨s.nextId, bid, BookingStatus.submitted,
                  "Booking updated and resubmitted for approval", actorId, s.clock⟩ : HistoryRec)]) (⟨s.nextId + 1, bid, BookingStatus.submitted, "Booking updated",
                  actorId, s.clock + 1⟩ : HistoryRec)
                    (fun h => h.bookingId == x.id) hxf,
                  filter_concat_false s.history (⟨s.nextId, bid, BookingStatus.submitted,
                  "Booking updated and resubmitted for approval", actorId, s.clock⟩ : HistoryRec) (fun h => h.bookingId == x.id) hxf]
                exact hInv.ledgerHead x
                  (by rw [hsplit]; exact List.mem_append_right _ (List.mem_cons_of_mem _ hx))
          · show ∀ x ∈ pre ++ (applyStatusUpdate BookingStatus.submitted (some "Booking updated") (s.clock + 1)
                (applyBookingUpdate { body with userId := actorId } s.clock ex)) :: post,
              (((s.history ++ [(⟨s.nextId, bid, BookingStatus.submitted,
                "Booking updated and resubmitted for approval", actorId, s.clock⟩ : HistoryRec)]) ++
                [(⟨s.nextId + 1, bid, BookingStatus.submitted, "Booking updated",
                  actorId, s.clock + 1⟩ : HistoryRec)]).filter
                (fun h : HistoryRec => h.bookingId == x.id)).getLast?.map
                  (fun h : HistoryRec => h.status) =
                some x.status
            intro x hx
            rcases List.mem_append.mp hx with hx | hx
            · rw [filter_concat_false (s.history ++ [(⟨s.nextId, bid, BookingStatus.submitted,
                  "Booking updated and resubmitted for approval", actorId, s.clock⟩ : HistoryRec)]) (⟨s.nextId + 1, bid, BookingStatus.submitted, "Booking updated",
                  actorId, s.clock + 1⟩ : HistoryRec)
                (fun h => h.bookingId == x.id) (beq_flip_false _ _ (hpre x hx)),
                filter_concat_false s.history (⟨s.nextId, bid, BookingStatus.submitted,
                  "Booking updated and resubmitted for approval", actorId, s.clock⟩ : HistoryRec) (fun h => h.bookingId == x.id)
                (beq_flip_false _ _ (hpre x hx))]
              exact hInv.ledgerLast x (by rw [hsplit]; exact List.mem_append_left _ hx)
            · rcases List.mem_cons.mp hx with hx | hx
              · subst hx
                simp only [hkey]
                rw [filter_concat_true (s.history ++ [(⟨s.nextId, bid, BookingStatus.submitted,
                  "Booking updated and resubmitted for approval", actorId, s.clock⟩ : HistoryRec)]) (⟨s.nextId + 1, bid, BookingStatus.submitted, "Booking updated",
                  actorId, s.clock + 1⟩ : HistoryRec)
                    (fun h => h.bookingId == ex.id) (beq_iff_eq.mpr hbid0.symm),
                  List.getLast?_concat]
                rfl
              · have hxf : (bid == x.id) = false :=
                  beq_eq_false_iff_ne.mpr fun hc => absurd hc.symm (hpost x hx)
                rw [filter_concat_false (s.history ++ [(⟨s.nextId, bid, BookingStatus.submitted,
                  "Booking updated and resubmitted for approval", actorId, s.clock⟩ : HistoryRec)]) (⟨s.nextId + 1, bid, BookingStatus.submitted, "Booking updated",
                  actorId, s.clock + 1⟩ : HistoryRec)
                    (fun h => h.bookingId == x.id) hxf,
                  filter_concat_false s.history (⟨s.nextId, bid, BookingStatus.submitted,
                  "Booking updated and resubmitted for approval", actorId, s.clock⟩ : HistoryRec) (fun h => h.bookingId == x.id) hxf]
                exact hInv.ledgerLast x
                  (by rw [hsplit]; exact List.mem_append_right _ (List.mem_cons_of_mem _ hx))

/-- Every mutating request preserves the store invariant. -/
theorem inv_step (s s' : StorageState) (hstep : Step s s') (hInv : Inv s) : Inv s' := by
  cases hstep with
  | create actorId body => exact inv_createRoute s actorId body hInv
  | edit actorId bid body => exact inv_editRoute s actorId bid body hInv
  | cancel actorId bid => exact inv_cancelRoute s actorId bid hInv
  | status actor bid st rem => exact inv_statusRoute s actor bid st rem hInv

/-- The invariant holds in every reachable store. -/
theorem inv_reachable (s : StorageState) (hreach : Reachable s) : Inv s := by
  obtain ⟨s0, hb0, hh0, hsteps⟩ := hreach
  induction hsteps with
  | refl =>
    refine ⟨?_, ?_, ?_, ?_, ?_, ?_, ?_⟩ <;> simp [hb0, hh0]
  | tail hab hbc ih => exact inv_step _ _ hbc ih

/-- C3: in every reachable store, every booking's history listing, ordered
chronologically (ascending creation time), is non-empty, starts with a
submitted entry, and ends with an entry carrying the booking's current
status; this is preserved by creation, status transitions, cancellation and
edit-resubmission, which are exactly the transitions of Step. -/
theorem booking_ledger_invariant (s : StorageState) (hreach : Reachable s) :
    ∀ b ∈ s.bookings,
      getBookingHistory s b.id ≠ [] ∧
      (getBookingHistory s b.id).head?.map (fun h => h.status) =
        some BookingStatus.submitted ∧
      (getBookingHistory s b.id).getLast?.map (fun h => h.status) = some b.status := by
  have hInv := inv_reachable s hreach
  intro b hb
  have hfilter : getBookingHistory s b.id =
      s.history.filter (fun h => h.bookingId == b.id) := by
    unfold getBookingHistory
    apply List.Sorted.insertionSort_eq
    exact (List.Pairwise.sublist (List.filter_sublist _) hInv.histSorted).imp
      (fun hlt => Nat.le_of_lt hlt)
  rw [hfilter]
  refine ⟨?_, hInv.ledgerHead b hb, hInv.ledgerLast b hb⟩
  intro hnil
  have hhead := hInv.ledgerHead b hb
  rw [hnil] at hhead
  exact Option.noConfusion hhead

/-- C3 witness: the store reached by one booking creation from the example
initial store satisfies the ledger invariant at booking 10. -/
theorem booking_ledger_invariant_witness :
    getBookingHistory exState1 10 ≠ [] ∧
    (getBookingHistory exState1 10).head?.map (fun h => h.status) =
      some BookingStatus.submitted ∧
    (getBookingHistory exState1 10).getLast?.map (fun h => h.status) =
      some BookingStatus.submitted :=
  booking_ledger_invariant exState1
    ⟨exState0, rfl, rfl, Relation.ReflTransGen.single (Step.create exState0 1 exPayload)⟩
    exBooking1 (by decide)

end VenueBooking
